import Mathlib

/-!
# ECG simulator (`main.cpp`): beat sequencing, rhythm timing and QRS pulse

A shallow embedding of the sample-synthesis engine of the ECG simulator:
the global variables of `main.cpp` become one record `State`, the timer
callback `samp_out` becomes a function from a state to the next state and
the list of output events of that tick, and the configuration dialogue
`kbd_IO` becomes a function of the operator's answers.

Modelling conventions
* C `int` globals are `Int`.  Every counter that the theorems below follow
  stays far inside the 32-bit range (`i`, `k` are at most 163, `j` at most
  `2 * 377 + 163`, `p` at most `ab_beat_freq`), so no wrap-around is modelled.
* C `float` amplitudes are rationals (exact arithmetic).
* `scanf` is modelled as delivering the number typed by the operator.
* The timer callback is atomic with respect to `kbd_IO`.
-/

namespace ECGSim

/-! ## Constants (`#define`s of `main.cpp`) -/

def BUFFER_SIZE1 : Int := 163
def BUFFER_SIZE3 : Int := 163
def ECG1_QRS_onset : Int := 46
def ECG1_QRS_offset : Int := 65
def ECG3_QRS_onset : Int := 6
def ECG3_QRS_offset : Int := 61

/-! ## Global state -/

/-- The global variables of `main.cpp` together with the state of the
digital output `QRS_led`. -/
structure State where
  hr : Int
  i : Int
  j : Int
  k : Int
  p : Int
  m : Int
  n : Int
  ab_beat_freq : Int
  iso_pts : Int
  iso_pts3 : Int
  base_pts : Int
  beat_type : Char
  ampl_lf : Rat
  ampl_60Hz : Rat
  ampl_rand : Rat
  input1 : Char
  QRS_led : Int
deriving DecidableEq

/-- The globals as initialised when the program is loaded (variables without
an initialiser have static storage and start at zero; the digital output
starts low). -/
def init : State :=
  { hr := 60, i := 0, j := 0, k := 0, p := 1, m := 0, n := 0,
    ab_beat_freq := 1, iso_pts := 0, iso_pts3 := 0, base_pts := 0,
    beat_type := 'V', ampl_lf := 0, ampl_60Hz := 0, ampl_rand := 0,
    input1 := Char.ofNat 0, QRS_led := 0 }

/-- What one tick can do to the outside world: write one sample computed by
`plot_ECG1(i)`, `plot_ECG3(k)` or `plot_baseline(j)` to the analog output and
the serial device, or assign a value to the digital output `QRS_led`. -/
inductive Event where
  | ECG1 (i : Int)
  | ECG3 (k : Int)
  | baseline (j : Int)
  | QRS_led (v : Int)
deriving DecidableEq

/-- An event that is an output sample (as opposed to a pulse assignment). -/
def Event.isSample : Event → Bool
  | Event.QRS_led _ => false
  | _ => true

/-! ## The per-tick code -/

/-- The state change of `noise()`: both phase counters are pre-incremented and
wrapped (`if (++m > 5) {m = 0;}`, `if (++n > 1439) {n = 0;}`). -/
def noise (s : State) : State :=
  let s1 := { s with m := s.m + 1 }
  let s2 := if s1.m > 5 then { s1 with m := 0 } else s1
  let s3 := { s2 with n := s2.n + 1 }
  if s3.n > 1439 then { s3 with n := 0 } else s3

/-- The function `plot_ECG1(i)`: calls `noise()` once and writes one sample. -/
def plot_ECG1 (i : Int) (s : State) : State × List Event :=
  (noise s, [Event.ECG1 i])

/-- The function `plot_ECG3(k)`: calls `noise()` once and writes one sample. -/
def plot_ECG3 (k : Int) (s : State) : State × List Event :=
  (noise s, [Event.ECG3 k])

/-- The function `plot_baseline(j)`: calls `noise()` once and writes one
sample. -/
def plot_baseline (j : Int) (s : State) : State × List Event :=
  (noise s, [Event.baseline j])

/-- The function `plot_QRS1_pulse(i)`. -/
def plot_QRS1_pulse (i : Int) (s : State) : State × List Event :=
  if i = ECG1_QRS_onset then ({ s with QRS_led := 1 }, [Event.QRS_led 1])
  else if i = ECG1_QRS_offset then ({ s with QRS_led := 0 }, [Event.QRS_led 0])
  else (s, [])

/-- The function `plot_QRS3_pulse(k)`. -/
def plot_QRS3_pulse (k : Int) (s : State) : State × List Event :=
  if k = ECG3_QRS_onset then ({ s with QRS_led := 1 }, [Event.QRS_led 1])
  else if k = ECG3_QRS_offset then ({ s with QRS_led := 0 }, [Event.QRS_led 0])
  else (s, [])

/-- Lines 142-159 of `samp_out`: choice of the isoelectric length, one
baseline sample while `j < base_pts`, otherwise the end of the cycle. -/
def samp_out_iso (s : State) : State × List Event :=
  let s1 := if s.beat_type = 'N' then { s with base_pts := s.iso_pts } else s
  let s2 := if s1.p = s1.ab_beat_freq ∧ s1.beat_type = 'V'
            then { s1 with base_pts := s1.iso_pts3 } else s1
  let s3 := if s2.p = s2.ab_beat_freq ∧ s2.beat_type = 'S'
            then { s2 with base_pts := 2 * s2.iso_pts + BUFFER_SIZE1 } else s2
  if s3.j < s3.base_pts then
    let r := plot_baseline s3.j s3
    ({ r.1 with j := r.1.j + 1 }, r.2)
  else
    let s4 := if s3.p = s3.ab_beat_freq then { s3 with p := 1 }
              else { s3 with p := s3.p + 1 }
    ({ s4 with i := 0, j := 0, k := 0, base_pts := s4.iso_pts }, [])

/-- The timer callback `samp_out`: the next state and the events of the
tick, in program order. -/
def samp_out (s : State) : State × List Event :=
  if s.i < BUFFER_SIZE1 then
    let r1 := plot_ECG1 s.i s
    let r2 := plot_QRS1_pulse r1.1.i r1.1
    ({ r2.1 with i := r2.1.i + 1 }, r1.2 ++ r2.2)
  else if s.beat_type = 'V' ∧ s.p = s.ab_beat_freq then
    if s.k < BUFFER_SIZE3 then
      let r1 := plot_ECG3 s.k s
      let r2 := plot_QRS3_pulse r1.1.k r1.1
      ({ r2.1 with k := r2.1.k + 1 }, r1.2 ++ r2.2)
    else samp_out_iso s
  else samp_out_iso s

/-! ## The configuration dialogue -/

/-- What the operator types during one run of `kbd_IO`. -/
structure KbdInput where
  mode : Char
  numb_beats : Int
  hr : Int
  add_noise : Char
  pct_60Hz : Rat
  pct_rand : Rat
  pct_lf : Rat

/-- The function `get_percent_noise`, as a function of the number typed. -/
def get_percent_noise (noise_level : Rat) : Rat :=
  if noise_level < 0 ∨ noise_level > 50 then 0 else noise_level

/-- The function `kbd_IO`.  `get_numb_beats` returns the number typed.  The
integer division `21600/hr` of C truncates toward zero. -/
def kbd_IO (inp : KbdInput) (s : State) : State :=
  let s0 := { s with input1 := inp.mode }
  let s1 :=
    if s0.input1 = 'N' ∨ s0.input1 = 'n' then { s0 with beat_type := 'N' }
    else if s0.input1 = 'V' ∨ s0.input1 = 'v' then
      { s0 with beat_type := 'V', ab_beat_freq := inp.numb_beats }
    else if s0.input1 = 'S' ∨ s0.input1 = 's' then
      { s0 with beat_type := 'S', ab_beat_freq := inp.numb_beats }
    else { s0 with input1 := 'N' }
  let s2 := { s1 with hr := inp.hr }
  let s3 := if s2.hr < 40 ∨ s2.hr > 120 then { s2 with hr := 60 } else s2
  let s4 := { s3 with iso_pts := Int.tdiv 21600 s3.hr - BUFFER_SIZE1 }
  let s5 := { s4 with iso_pts3 := BUFFER_SIZE1 + 2 * s4.iso_pts - BUFFER_SIZE3 }
  let s6 := { s5 with base_pts := s5.iso_pts }
  if inp.add_noise = 'Y' ∨ inp.add_noise = 'y' then
    { s6 with ampl_60Hz := get_percent_noise inp.pct_60Hz / 100,
              ampl_rand := get_percent_noise inp.pct_rand / 100,
              ampl_lf := get_percent_noise inp.pct_lf / 100 }
  else s6

/-! ## Running the timer -/

/-- The state after one tick. -/
def step (s : State) : State := (samp_out s).1

/-- The samples written during the tick that starts in state `s`. -/
def sampleAt (s : State) : List Event := (samp_out s).2.filter Event.isSample

/-- The state after `t` ticks. -/
def run : Nat → State → State
  | 0, s => s
  | t + 1, s => run t (step s)

/-- The samples written by each of the next `t` ticks, one entry per tick. -/
def ticks : Nat → State → List (List Event)
  | 0, _ => []
  | t + 1, s => sampleAt s :: ticks t (step s)

/-- An operator input with the given mode, abnormal-beat count and heart
rate, and no noise. -/
def quiet (mode : Char) (numb_beats hr : Int) : KbdInput :=
  { mode := mode, numb_beats := numb_beats, hr := hr, add_noise := 'N',
    pct_60Hz := 0, pct_rand := 0, pct_lf := 0 }


/-! ## Auxiliary definitions: closed forms, output patterns, invariant -/

/-- The phase counter `m` after `noise()`. -/
def next_m (s : State) : Int := if s.m + 1 > 5 then 0 else s.m + 1

/-- The phase counter `n` after `noise()`. -/
def next_n (s : State) : Int := if s.n + 1 > 1439 then 0 else s.n + 1

/-- The value of `base_pts` after lines 143-145 of `samp_out`. -/
def sel_base (s : State) : Int :=
  if s.p = s.ab_beat_freq ∧ s.beat_type = 'S' then 2 * s.iso_pts + BUFFER_SIZE1
  else if s.p = s.ab_beat_freq ∧ s.beat_type = 'V' then s.iso_pts3
  else if s.beat_type = 'N' then s.iso_pts
  else s.base_pts

/-- The configuration that `samp_out` reads and never writes. -/
def cfg (s : State) : Char × Int × Int × Int :=
  (s.beat_type, s.ab_beat_freq, s.iso_pts, s.iso_pts3)

/-- The per-tick samples of one complete playback of the normal template. -/
def ecg1_run : List (List Event) :=
  (List.range 163).map (fun x : Nat => [Event.ECG1 (x : Int)])

/-- The per-tick samples of one complete playback of the PVC template. -/
def ecg3_run : List (List Event) :=
  (List.range 163).map (fun x : Nat => [Event.ECG3 (x : Int)])

/-- The per-tick samples of a baseline run of `len` samples. -/
def baseline_run (len : Nat) : List (List Event) :=
  (List.range len).map (fun x : Nat => [Event.baseline (x : Int)])

/-- The ticks of a cycle without abnormal beat: the normal template, `iso`
baseline samples, and the tick that ends the cycle, which writes no sample. -/
def normal_cycle (iso : Nat) : List (List Event) :=
  ecg1_run ++ baseline_run iso ++ [[]]

/-- The ticks of a cycle with a PVC: the normal template, the PVC template,
`iso3` baseline samples, and the tick that ends the cycle. -/
def pvc_cycle (iso3 : Nat) : List (List Event) :=
  ecg1_run ++ ecg3_run ++ baseline_run iso3 ++ [[]]

/-- The ticks of a cycle with a skipped beat: the normal template,
`2 * iso + 163` baseline samples, and the tick that ends the cycle. -/
def skip_cycle (iso : Nat) : List (List Event) :=
  ecg1_run ++ baseline_run (2 * iso + 163) ++ [[]]

/-- A state at the start of a beat cycle, as left by `kbd_IO` on a fresh
program or by the tick that ends a cycle. -/
def CycleStart (s : State) : Prop :=
  s.i = 0 ∧ s.j = 0 ∧ s.k = 0 ∧ s.base_pts = s.iso_pts

/-- The concatenation of `r` copies of a list of ticks. -/
def cycles : Nat → List (List Event) → List (List Event)
  | 0, _ => []
  | r + 1, c => c ++ cycles r c

/-- The number of samples written during a list of ticks. -/
def sample_count (l : List (List Event)) : Nat := (l.map List.length).sum

/-- The beat period as the specification words it:
`round(S * 60 / heart_rate_bpm)` with `S = 360`, the nearest integer to the
exact quotient. -/
def round_beat_period (hr : Int) : Int := round ((360 * 60 : ℚ) / (hr : ℚ))

/-- The invariant of the playback state: index bounds, the baseline and PVC
indices are zero while the normal template plays, the PVC index moves only in
a triggering PVC cycle, and the pulse is high exactly inside a QRS window. -/
def Inv (s : State) : Prop :=
  0 ≤ s.i ∧ s.i ≤ 163 ∧ 0 ≤ s.k ∧ s.k ≤ 163 ∧ 0 ≤ s.j ∧
  (s.i < 163 → s.j = 0 ∧ s.k = 0 ∧ s.base_pts = s.iso_pts) ∧
  (s.k ≠ 0 → s.beat_type = 'V' ∧ s.p = s.ab_beat_freq) ∧
  s.QRS_led = (if (47 ≤ s.i ∧ s.i ≤ 65) ∨ (7 ≤ s.k ∧ s.k ≤ 61) then 1 else 0)

/-- The value of `hr` after the range check of `kbd_IO`. -/
def kbd_hr (inp : KbdInput) : Int :=
  if inp.hr < 40 ∨ inp.hr > 120 then 60 else inp.hr

/-- The value of `beat_type` after the mode `switch` of `kbd_IO`. -/
def kbd_beat_type (inp : KbdInput) (s : State) : Char :=
  if inp.mode = 'N' ∨ inp.mode = 'n' then 'N'
  else if inp.mode = 'V' ∨ inp.mode = 'v' then 'V'
  else if inp.mode = 'S' ∨ inp.mode = 's' then 'S'
  else s.beat_type

/-! ## Sample values

The amplitude tables and the arithmetic of the plot functions, in exact
rational arithmetic: the decimal constants of the source stand for
themselves, `sin` is a parameter, and the quotient `(float)rand()/RAND_MAX`
of one call of `rand()` is a parameter `rnd`. -/

/-- The constant `pi` of `main.cpp`. -/
def pi : Rat := 3.14159

/-- The template `ECG1` of `main.cpp`. -/
def ECG1 : List Rat :=
  [0.500, 0.501, 0.500, 0.500, 0.499, 0.501, 0.502, 0.500, 0.500, 0.509,
   0.524, 0.538, 0.547, 0.562, 0.566, 0.566, 0.566, 0.557, 0.552, 0.543,
   0.533, 0.524, 0.519, 0.509, 0.505, 0.505, 0.500, 0.500, 0.505, 0.505,
   0.505, 0.505, 0.505, 0.509, 0.509, 0.509, 0.514, 0.514, 0.514, 0.514,
   0.514, 0.514, 0.514, 0.514, 0.514, 0.514, 0.528, 0.552, 0.595, 0.657,
   0.742, 0.842, 0.932, 0.990, 0.999, 0.956, 0.866, 0.752, 0.628, 0.524,
   0.304, 0.091, 0.001, 0.001, 0.091, 0.197, 0.322, 0.411, 0.482, 0.500,
   0.505, 0.509, 0.505, 0.505, 0.505, 0.505, 0.500, 0.500, 0.500, 0.500,
   0.500, 0.500, 0.500, 0.500, 0.500, 0.500, 0.500, 0.500, 0.505, 0.505,
   0.509, 0.509, 0.514, 0.514, 0.519, 0.519, 0.524, 0.528, 0.533, 0.538,
   0.538, 0.543, 0.547, 0.547, 0.552, 0.552, 0.557, 0.557, 0.557, 0.562,
   0.566, 0.576, 0.585, 0.595, 0.604, 0.614, 0.628, 0.638, 0.647, 0.661,
   0.676, 0.685, 0.700, 0.709, 0.723, 0.733, 0.747, 0.757, 0.761, 0.766,
   0.771, 0.771, 0.776, 0.776, 0.771, 0.771, 0.766, 0.766, 0.757, 0.747,
   0.738, 0.723, 0.704, 0.690, 0.671, 0.657, 0.638, 0.623, 0.609, 0.595,
   0.581, 0.566, 0.557, 0.547, 0.538, 0.533, 0.524, 0.514, 0.509, 0.505,
   0.505, 0.500, 0.500]

/-- The template `ECG3` of `main.cpp` (PVC beat). -/
def ECG3 : List Rat :=
  [0.500, 0.500, 0.500, 0.500, 0.499, 0.501, 0.502, 0.500, 0.500, 0.495,
   0.489, 0.484, 0.478, 0.467, 0.451, 0.434, 0.418, 0.407, 0.396, 0.385,
   0.374, 0.363, 0.352, 0.341, 0.319, 0.297, 0.275, 0.253, 0.231, 0.209,
   0.182, 0.154, 0.132, 0.110, 0.089, 0.067, 0.045, 0.028, 0.017, 0.006,
   0.001, 0.001, 0.001, 0.006, 0.012, 0.023, 0.039, 0.061, 0.083, 0.116,
   0.149, 0.193, 0.237, 0.281, 0.319, 0.352, 0.385, 0.418, 0.451, 0.484,
   0.500, 0.527, 0.561, 0.595, 0.636, 0.664, 0.684, 0.698, 0.705, 0.718,
   0.725, 0.739, 0.746, 0.752, 0.752, 0.759, 0.759, 0.766, 0.766, 0.773,
   0.773, 0.780, 0.787, 0.800, 0.800, 0.807, 0.807, 0.814, 0.821, 0.834,
   0.841, 0.841, 0.848, 0.855, 0.862, 0.869, 0.875, 0.882, 0.889, 0.896,
   0.903, 0.909, 0.923, 0.930, 0.937, 0.944, 0.950, 0.964, 0.971, 0.971,
   0.978, 0.978, 0.985, 0.991, 0.998, 0.998, 0.998, 0.998, 0.991, 0.985,
   0.978, 0.971, 0.957, 0.944, 0.937, 0.923, 0.909, 0.896, 0.875, 0.855,
   0.834, 0.821, 0.807, 0.787, 0.793, 0.752, 0.739, 0.718, 0.698, 0.677,
   0.657, 0.643, 0.623, 0.609, 0.595, 0.582, 0.568, 0.561, 0.554, 0.541,
   0.527, 0.520, 0.513, 0.513, 0.507, 0.507, 0.500, 0.500, 0.500, 0.500,
   0.500, 0.500, 0.500]

/-- A read `tbl[a]` of a C array with an `int` index: defined only inside the
array. -/
def table_at (tbl : List Rat) (a : Int) : Option Rat :=
  if 0 ≤ a then tbl[a.toNat]? else none

/-- The value returned by `noise()` when it is called in state `s`: the
counters are incremented first, then used. -/
def noise_value (sin : Rat → Rat) (rnd : Rat) (s : State) : Rat :=
  (noise s).ampl_rand * (rnd - 0.5)
    + (noise s).ampl_60Hz * sin (pi / 6.0 + (noise s).m * pi / 3.0)
    + (noise s).ampl_lf * sin ((noise s).n * pi / 720.0)

/-- The sample `temp` written by `plot_ECG1(i)` called in state `s`. -/
def plot_ECG1_value (sin : Rat → Rat) (rnd : Rat) (i : Int) (s : State) : Option Rat :=
  (table_at ECG1 i).map (fun x => 0.5 + 0.3 * ((x - 0.5) + noise_value sin rnd s))

/-- The sample `temp` written by `plot_ECG3(k)` called in state `s`. -/
def plot_ECG3_value (sin : Rat → Rat) (rnd : Rat) (k : Int) (s : State) : Option Rat :=
  (table_at ECG3 k).map (fun x => 0.5 + 0.3 * ((x - 0.5) + noise_value sin rnd s))

/-- The sample `temp` written by `plot_baseline(j)` called in state `s`. -/
def plot_baseline_value (sin : Rat → Rat) (rnd : Rat) (s : State) : Rat :=
  0.5 + 0.3 * noise_value sin rnd s

/-- The value carried by an event of a tick that starts in state `s` (the
plot functions are called before any counter of that tick is changed; the
pulse assignment carries no sample). -/
def event_value (sin : Rat → Rat) (rnd : Rat) (s : State) : Event → Option Rat
  | Event.ECG1 i => plot_ECG1_value sin rnd i s
  | Event.ECG3 k => plot_ECG3_value sin rnd k s
  | Event.baseline _ => some (plot_baseline_value sin rnd s)
  | Event.QRS_led _ => none

/-- The sample values written during the tick that starts in state `s`. -/
def value_at (sin : Rat → Rat) (rnd : Rat) (s : State) : List (Option Rat) :=
  (sampleAt s).map (event_value sin rnd s)

/-- The sample values written by the next `t` ticks, in order, when the
`u`-th of these ticks draws `rnd u`. -/
def values (sin : Rat → Rat) : Nat → (Nat → Rat) → State → List (Option Rat)
  | 0, _, _ => []
  | t + 1, rnd, s => value_at sin (rnd 0) s ++ values sin t (fun u => rnd (u + 1)) (step s)

/-- The value of a sample when all three noise amplitudes are zero. -/
def quiet_value : Event → Option Rat
  | Event.ECG1 i => (table_at ECG1 i).map (fun x => 0.5 + 0.3 * (x - 0.5))
  | Event.ECG3 k => (table_at ECG3 k).map (fun x => 0.5 + 0.3 * (x - 0.5))
  | Event.baseline _ => some 0.5
  | Event.QRS_led _ => none

/-- The zero-noise values of the samples of a list of ticks, in order. -/
def quiet_values : List (List Event) → List (Option Rat)
  | [] => []
  | l :: ls => l.map quiet_value ++ quiet_values ls

/-- The concatenation of `r` copies of a sequence of sample values. -/
def periods : Nat → List (Option Rat) → List (Option Rat)
  | 0, _ => []
  | r + 1, c => c ++ periods r c

/-- The noise amplitudes of a state. -/
def ampl (s : State) : Rat × Rat × Rat := (s.ampl_lf, s.ampl_60Hz, s.ampl_rand)

/-- The second invariant of the playback state: the isoelectric length is
not negative and the baseline index stays within the current baseline
length. -/
def Inv_base (s : State) : Prop :=
  0 ≤ s.iso_pts ∧ 0 ≤ s.j ∧ s.j ≤ s.base_pts

/-! ## Basic facts about one tick -/

theorem noise_eq (s : State) :
    noise s = { s with m := next_m s, n := next_n s } := by
  unfold noise next_m next_n
  by_cases h1 : s.m + 1 > 5 <;> by_cases h2 : s.n + 1 > 1439 <;> simp [h1, h2]

theorem plot_QRS1_pulse_fst (a : Int) (s : State) :
    (plot_QRS1_pulse a s).1 =
      { s with QRS_led := if a = 46 then 1 else if a = 65 then 0 else s.QRS_led } := by
  unfold plot_QRS1_pulse ECG1_QRS_onset ECG1_QRS_offset
  by_cases h1 : a = 46 <;> by_cases h2 : a = 65 <;> simp [h1, h2]

theorem plot_QRS1_pulse_snd (a : Int) (s : State) :
    (plot_QRS1_pulse a s).2.filter Event.isSample = [] := by
  unfold plot_QRS1_pulse
  split_ifs <;> rfl

theorem plot_QRS3_pulse_fst (a : Int) (s : State) :
    (plot_QRS3_pulse a s).1 =
      { s with QRS_led := if a = 6 then 1 else if a = 61 then 0 else s.QRS_led } := by
  unfold plot_QRS3_pulse ECG3_QRS_onset ECG3_QRS_offset
  by_cases h1 : a = 6 <;> by_cases h2 : a = 61 <;> simp [h1, h2]

theorem plot_QRS3_pulse_snd (a : Int) (s : State) :
    (plot_QRS3_pulse a s).2.filter Event.isSample = [] := by
  unfold plot_QRS3_pulse
  split_ifs <;> rfl

theorem step_ecg1 (s : State) (h : s.i < 163) :
    step s = { s with i := s.i + 1, m := next_m s, n := next_n s,
                      QRS_led := if s.i = 46 then 1 else if s.i = 65 then 0 else s.QRS_led } := by
  simp [step, samp_out, BUFFER_SIZE1, h, plot_ECG1, plot_QRS1_pulse_fst, noise_eq]

theorem sampleAt_ecg1 (s : State) (h : s.i < 163) :
    sampleAt s = [Event.ECG1 s.i] := by
  simp [sampleAt, samp_out, BUFFER_SIZE1, h, plot_ECG1, plot_QRS1_pulse_snd, Event.isSample]

theorem step_ecg3 (s : State) (h : ¬ s.i < 163) (hV : s.beat_type = 'V')
    (hp : s.p = s.ab_beat_freq) (hk : s.k < 163) :
    step s = { s with k := s.k + 1, m := next_m s, n := next_n s,
                      QRS_led := if s.k = 6 then 1 else if s.k = 61 then 0 else s.QRS_led } := by
  simp [step, samp_out, BUFFER_SIZE1, BUFFER_SIZE3, h, hV, hp, hk, plot_ECG3,
    plot_QRS3_pulse_fst, noise_eq]

theorem sampleAt_ecg3 (s : State) (h : ¬ s.i < 163) (hV : s.beat_type = 'V')
    (hp : s.p = s.ab_beat_freq) (hk : s.k < 163) :
    sampleAt s = [Event.ECG3 s.k] := by
  simp [sampleAt, samp_out, BUFFER_SIZE1, BUFFER_SIZE3, h, hV, hp, hk, plot_ECG3,
    plot_QRS3_pulse_snd, Event.isSample]

theorem samp_out_iso_base (s : State) (hj : s.j < sel_base s) :
    samp_out_iso s =
      ({ s with base_pts := sel_base s, j := s.j + 1, m := next_m s, n := next_n s },
       [Event.baseline s.j]) := by
  unfold sel_base at hj
  unfold samp_out_iso sel_base
  by_cases hN : s.beat_type = 'N' <;> by_cases hV : s.beat_type = 'V' <;>
    by_cases hS : s.beat_type = 'S' <;> by_cases hp : s.p = s.ab_beat_freq <;>
    simp_all [plot_baseline, noise_eq, next_m, next_n]

theorem samp_out_iso_reset (s : State) (hj : ¬ s.j < sel_base s) :
    samp_out_iso s =
      ({ s with i := 0, j := 0, k := 0, base_pts := s.iso_pts,
                p := if s.p = s.ab_beat_freq then 1 else s.p + 1 }, []) := by
  unfold sel_base at hj
  unfold samp_out_iso
  by_cases hN : s.beat_type = 'N' <;> by_cases hV : s.beat_type = 'V' <;>
    by_cases hS : s.beat_type = 'S' <;> by_cases hp : s.p = s.ab_beat_freq <;>
    simp_all

theorem samp_out_iso_of (s : State) (h : ¬ s.i < 163)
    (h3 : ¬ (s.beat_type = 'V' ∧ s.p = s.ab_beat_freq ∧ s.k < 163)) :
    samp_out s = samp_out_iso s := by
  simp only [samp_out, BUFFER_SIZE1, BUFFER_SIZE3]
  rw [if_neg h]
  split_ifs with h1 h2
  · exact absurd ⟨h1.1, h1.2, h2⟩ h3
  · rfl
  · rfl

theorem step_base (s : State) (h : ¬ s.i < 163)
    (h3 : ¬ (s.beat_type = 'V' ∧ s.p = s.ab_beat_freq ∧ s.k < 163))
    (hj : s.j < sel_base s) :
    step s = { s with base_pts := sel_base s, j := s.j + 1, m := next_m s, n := next_n s } := by
  simp [step, samp_out_iso_of s h h3, samp_out_iso_base s hj]

theorem sampleAt_base (s : State) (h : ¬ s.i < 163)
    (h3 : ¬ (s.beat_type = 'V' ∧ s.p = s.ab_beat_freq ∧ s.k < 163))
    (hj : s.j < sel_base s) :
    sampleAt s = [Event.baseline s.j] := by
  simp [sampleAt, samp_out_iso_of s h h3, samp_out_iso_base s hj, Event.isSample]

theorem step_reset (s : State) (h : ¬ s.i < 163)
    (h3 : ¬ (s.beat_type = 'V' ∧ s.p = s.ab_beat_freq ∧ s.k < 163))
    (hj : ¬ s.j < sel_base s) :
    step s = { s with i := 0, j := 0, k := 0, base_pts := s.iso_pts,
                      p := if s.p = s.ab_beat_freq then 1 else s.p + 1 } := by
  simp [step, samp_out_iso_of s h h3, samp_out_iso_reset s hj]

theorem sampleAt_reset (s : State) (h : ¬ s.i < 163)
    (h3 : ¬ (s.beat_type = 'V' ∧ s.p = s.ab_beat_freq ∧ s.k < 163))
    (hj : ¬ s.j < sel_base s) :
    sampleAt s = [] := by
  simp [sampleAt, samp_out_iso_of s h h3, samp_out_iso_reset s hj]

/-- The four kinds of tick: a sample of the normal template, a sample of the
PVC template, a baseline sample, or the end of the cycle. -/
theorem step_cases (s : State) :
    (s.i < 163 ∧
      step s = { s with i := s.i + 1, m := next_m s, n := next_n s,
                        QRS_led := if s.i = 46 then 1 else if s.i = 65 then 0 else s.QRS_led } ∧
      sampleAt s = [Event.ECG1 s.i]) ∨
    (¬ s.i < 163 ∧ (s.beat_type = 'V' ∧ s.p = s.ab_beat_freq ∧ s.k < 163) ∧
      step s = { s with k := s.k + 1, m := next_m s, n := next_n s,
                        QRS_led := if s.k = 6 then 1 else if s.k = 61 then 0 else s.QRS_led } ∧
      sampleAt s = [Event.ECG3 s.k]) ∨
    (¬ s.i < 163 ∧ ¬ (s.beat_type = 'V' ∧ s.p = s.ab_beat_freq ∧ s.k < 163) ∧
      s.j < sel_base s ∧
      step s = { s with base_pts := sel_base s, j := s.j + 1, m := next_m s, n := next_n s } ∧
      sampleAt s = [Event.baseline s.j]) ∨
    (¬ s.i < 163 ∧ ¬ (s.beat_type = 'V' ∧ s.p = s.ab_beat_freq ∧ s.k < 163) ∧
      ¬ s.j < sel_base s ∧
      step s = { s with i := 0, j := 0, k := 0, base_pts := s.iso_pts,
                        p := if s.p = s.ab_beat_freq then 1 else s.p + 1 } ∧
      sampleAt s = []) := by
  by_cases h : s.i < 163
  · exact Or.inl ⟨h, step_ecg1 s h, sampleAt_ecg1 s h⟩
  · by_cases h3 : s.beat_type = 'V' ∧ s.p = s.ab_beat_freq ∧ s.k < 163
    · exact Or.inr (Or.inl ⟨h, h3, step_ecg3 s h h3.1 h3.2.1 h3.2.2,
        sampleAt_ecg3 s h h3.1 h3.2.1 h3.2.2⟩)
    · by_cases hj : s.j < sel_base s
      · exact Or.inr (Or.inr (Or.inl ⟨h, h3, hj, step_base s h h3 hj, sampleAt_base s h h3 hj⟩))
      · exact Or.inr (Or.inr (Or.inr ⟨h, h3, hj, step_reset s h h3 hj, sampleAt_reset s h h3 hj⟩))

theorem cfg_step (s : State) : cfg (step s) = cfg s := by
  rcases step_cases s with ⟨_, h, _⟩ | ⟨_, _, h, _⟩ | ⟨_, _, _, h, _⟩ | ⟨_, _, _, h, _⟩ <;>
    rw [h] <;> rfl

theorem cfg_run (t : Nat) (s : State) : cfg (run t s) = cfg s := by
  induction t generalizing s with
  | zero => rfl
  | succ t ih => rw [run, ih, cfg_step]

theorem run_add (a b : Nat) (s : State) : run (a + b) s = run b (run a s) := by
  induction a generalizing s with
  | zero => simp [run]
  | succ a ih => rw [Nat.succ_add, run, ih, run]

theorem ticks_add (a b : Nat) (s : State) :
    ticks (a + b) s = ticks a s ++ ticks b (run a s) := by
  induction a generalizing s with
  | zero => simp [run, ticks]
  | succ a ih => rw [Nat.succ_add, ticks, ih, ticks, run, List.cons_append]

theorem step_beat_type (s : State) : (step s).beat_type = s.beat_type :=
  congrArg (fun c => c.1) (cfg_step s)

theorem step_ab_beat_freq (s : State) : (step s).ab_beat_freq = s.ab_beat_freq :=
  congrArg (fun c => c.2.1) (cfg_step s)

theorem step_iso_pts (s : State) : (step s).iso_pts = s.iso_pts :=
  congrArg (fun c => c.2.2.1) (cfg_step s)

theorem step_iso_pts3 (s : State) : (step s).iso_pts3 = s.iso_pts3 :=
  congrArg (fun c => c.2.2.2) (cfg_step s)

theorem run_beat_type (t : Nat) (s : State) : (run t s).beat_type = s.beat_type :=
  congrArg (fun c => c.1) (cfg_run t s)

theorem run_ab_beat_freq (t : Nat) (s : State) : (run t s).ab_beat_freq = s.ab_beat_freq :=
  congrArg (fun c => c.2.1) (cfg_run t s)

theorem run_iso_pts (t : Nat) (s : State) : (run t s).iso_pts = s.iso_pts :=
  congrArg (fun c => c.2.2.1) (cfg_run t s)

theorem run_iso_pts3 (t : Nat) (s : State) : (run t s).iso_pts3 = s.iso_pts3 :=
  congrArg (fun c => c.2.2.2) (cfg_run t s)

/-- Playing the normal template from index `a` for `t` ticks. -/
theorem ticks_ecg1 (t : Nat) : ∀ (a : Nat) (s : State), s.i = a → a + t ≤ 163 →
    ticks t s = (List.range' a t).map (fun x : Nat => [Event.ECG1 (x : Int)]) ∧
    (run t s).i = ((a + t : Nat) : Int) ∧ (run t s).j = s.j ∧ (run t s).k = s.k ∧
    (run t s).p = s.p ∧ (run t s).base_pts = s.base_pts := by
  induction t with
  | zero => intro a s hi _; simp [ticks, run, hi]
  | succ t ih =>
    intro a s hi hle
    have hlt : s.i < 163 := by omega
    have hst := step_ecg1 s hlt
    have h1 : (step s).i = ((a + 1 : Nat) : Int) := by rw [hst]; simp [hi]
    obtain ⟨e1, e2, e3, e4, e5, e6⟩ := ih (a + 1) (step s) h1 (by omega)
    refine ⟨?_, ?_, ?_, ?_, ?_, ?_⟩
    · rw [ticks, e1, sampleAt_ecg1 s hlt, hi]; simp [List.range'_succ]
    · rw [run, e2]; push_cast; ring
    · rw [run, e3, hst]
    · rw [run, e4, hst]
    · rw [run, e5, hst]
    · rw [run, e6, hst]

/-- Playing the PVC template from index `a` for `t` ticks. -/
theorem ticks_ecg3 (t : Nat) : ∀ (a : Nat) (s : State), ¬ s.i < 163 →
    s.beat_type = 'V' → s.p = s.ab_beat_freq → s.k = a → a + t ≤ 163 →
    ticks t s = (List.range' a t).map (fun x : Nat => [Event.ECG3 (x : Int)]) ∧
    (run t s).i = s.i ∧ (run t s).j = s.j ∧ (run t s).k = ((a + t : Nat) : Int) ∧
    (run t s).p = s.p ∧ (run t s).base_pts = s.base_pts := by
  induction t with
  | zero => intro a s _ _ _ hk _; simp [ticks, run, hk]
  | succ t ih =>
    intro a s hi hV hp hk hle
    have hlt : s.k < 163 := by omega
    have hst := step_ecg3 s hi hV hp hlt
    have h1 : (step s).k = ((a + 1 : Nat) : Int) := by rw [hst]; simp [hk]
    have h2 : ¬ (step s).i < 163 := by rw [hst]; exact hi
    have h3 : (step s).p = (step s).ab_beat_freq := by rw [hst]; exact hp
    obtain ⟨e1, e2, e3, e4, e5, e6⟩ :=
      ih (a + 1) (step s) h2 (by rw [step_beat_type]; exact hV) h3 h1 (by omega)
    refine ⟨?_, ?_, ?_, ?_, ?_, ?_⟩
    · rw [ticks, e1, sampleAt_ecg3 s hi hV hp hlt, hk]; simp [List.range'_succ]
    · rw [run, e2, hst]
    · rw [run, e3, hst]
    · rw [run, e4]; push_cast; ring
    · rw [run, e5, hst]
    · rw [run, e6, hst]

theorem sel_base_step_base (s : State) :
    sel_base { s with base_pts := sel_base s, j := s.j + 1, m := next_m s, n := next_n s }
      = sel_base s := by
  unfold sel_base
  by_cases hN : s.beat_type = 'N' <;> by_cases hV : s.beat_type = 'V' <;>
    by_cases hS : s.beat_type = 'S' <;> by_cases hp : s.p = s.ab_beat_freq <;>
    simp_all

/-- Playing the baseline from index `a` for `t` ticks, when the selected
baseline length is at least `a + t`. -/
theorem ticks_base (t : Nat) : ∀ (a : Nat) (s : State), ¬ s.i < 163 →
    ¬ (s.beat_type = 'V' ∧ s.p = s.ab_beat_freq ∧ s.k < 163) →
    s.j = a → (a + t : Nat) ≤ sel_base s →
    ticks t s = (List.range' a t).map (fun x : Nat => [Event.baseline (x : Int)]) ∧
    (run t s).i = s.i ∧ (run t s).j = ((a + t : Nat) : Int) ∧ (run t s).k = s.k ∧
    (run t s).p = s.p ∧ sel_base (run t s) = sel_base s := by
  induction t with
  | zero => intro a s _ _ hj _; simp [ticks, run, hj]
  | succ t ih =>
    intro a s hi h3 hj hle
    have hlt : s.j < sel_base s := by push_cast at hle; omega
    have hst := step_base s hi h3 hlt
    have h1 : (step s).j = ((a + 1 : Nat) : Int) := by rw [hst]; simp [hj]
    have h2 : ¬ (step s).i < 163 := by rw [hst]; exact hi
    have h4 : ¬ ((step s).beat_type = 'V' ∧ (step s).p = (step s).ab_beat_freq ∧
        (step s).k < 163) := by rw [hst]; exact h3
    have h5 : sel_base (step s) = sel_base s := by rw [hst]; exact sel_base_step_base s
    obtain ⟨e1, e2, e3, e4, e5, e6⟩ :=
      ih (a + 1) (step s) h2 h4 h1 (by rw [h5]; push_cast at hle ⊢; omega)
    refine ⟨?_, ?_, ?_, ?_, ?_, ?_⟩
    · rw [ticks, e1, sampleAt_base s hi h3 hlt, hj]; simp [List.range'_succ]
    · rw [run, e2, hst]
    · rw [run, e3]; push_cast; ring
    · rw [run, e4, hst]
    · rw [run, e5, hst]
    · rw [run, e6, h5]

theorem ticks_one (s : State) : ticks 1 s = [sampleAt s] := rfl

theorem run_one (s : State) : run 1 s = step s := rfl

/-- A cycle in which the PVC template is not played: the normal template,
then as many baseline samples as lines 143-145 select, then the silent tick
that ends the cycle. -/
theorem cycle_no_pvc (s : State) (B : Nat) (hs : CycleStart s)
    (hnv : ¬ (s.beat_type = 'V' ∧ s.p = s.ab_beat_freq))
    (hB : sel_base s = (B : Int)) :
    ticks (163 + B + 1) s = ecg1_run ++ baseline_run B ++ [[]] ∧
    CycleStart (run (163 + B + 1) s) ∧
    (run (163 + B + 1) s).p = (if s.p = s.ab_beat_freq then 1 else s.p + 1) := by
  obtain ⟨hi, hj, hk, hb⟩ := hs
  obtain ⟨a1, a2, a3, a4, a5, a6⟩ := ticks_ecg1 163 0 s (by simp [hi]) (by omega)
  have c1 := cfg_run 163 s
  simp only [cfg, Prod.mk.injEq] at c1
  obtain ⟨c11, c12, c13, c14⟩ := c1
  have hsel : sel_base (run 163 s) = (B : Int) := by
    rw [← hB]; unfold sel_base; rw [a5, a6, c11, c12, c13, c14]
  have hni : ¬ (run 163 s).i < 163 := by rw [a2]; simp
  have hn3 : ¬ ((run 163 s).beat_type = 'V' ∧ (run 163 s).p = (run 163 s).ab_beat_freq ∧
      (run 163 s).k < 163) := by
    rw [c11, c12, a5]; exact fun h => hnv ⟨h.1, h.2.1⟩
  obtain ⟨b1, b2, b3, b4, b5, b6⟩ :=
    ticks_base B 0 (run 163 s) hni hn3 (by rw [a3, hj]; simp) (by rw [hsel]; simp)
  have c2 := cfg_run B (run 163 s)
  simp only [cfg, Prod.mk.injEq] at c2
  obtain ⟨c21, c22, c23, c24⟩ := c2
  have hni2 : ¬ (run B (run 163 s)).i < 163 := by rw [b2]; exact hni
  have hn32 : ¬ ((run B (run 163 s)).beat_type = 'V' ∧
      (run B (run 163 s)).p = (run B (run 163 s)).ab_beat_freq ∧
      (run B (run 163 s)).k < 163) := by
    rw [c21, c22, b5, b4]; exact hn3
  have hnj : ¬ (run B (run 163 s)).j < sel_base (run B (run 163 s)) := by
    rw [b3, b6, hsel]; simp
  have hst := step_reset _ hni2 hn32 hnj
  have hsa := sampleAt_reset _ hni2 hn32 hnj
  have hrun : run (163 + B + 1) s = step (run B (run 163 s)) := by
    rw [run_add, run_add, run_one]
  refine ⟨?_, ?_, ?_⟩
  · rw [ticks_add, ticks_add]
    simp only [run_add]
    rw [a1, b1, ticks_one, hsa]
    simp [ecg1_run, baseline_run, List.range_eq_range']
  · rw [hrun, hst]; simp [CycleStart]
  · rw [hrun, hst]; simp only []; rw [b5, a5, c22, c12]

/-- A cycle in which the PVC template is played: the normal template, the
PVC template, `iso_pts3` baseline samples, and the silent tick that ends the
cycle; the beat counter restarts at 1. -/
theorem cycle_pvc (s : State) (B : Nat) (hs : CycleStart s)
    (hV : s.beat_type = 'V') (hp : s.p = s.ab_beat_freq)
    (hB : s.iso_pts3 = (B : Int)) :
    ticks (163 + 163 + B + 1) s = ecg1_run ++ ecg3_run ++ baseline_run B ++ [[]] ∧
    CycleStart (run (163 + 163 + B + 1) s) ∧
    (run (163 + 163 + B + 1) s).p = 1 := by
  obtain ⟨hi, hj, hk, hb⟩ := hs
  obtain ⟨a1, a2, a3, a4, a5, a6⟩ := ticks_ecg1 163 0 s (by simp [hi]) (by omega)
  have c1 := cfg_run 163 s
  simp only [cfg, Prod.mk.injEq] at c1
  obtain ⟨c11, c12, c13, c14⟩ := c1
  have hni : ¬ (run 163 s).i < 163 := by rw [a2]; simp
  obtain ⟨d1, d2, d3, d4, d5, d6⟩ :=
    ticks_ecg3 163 0 (run 163 s) hni (by rw [c11]; exact hV) (by rw [a5, c12]; exact hp)
      (by rw [a4, hk]; simp) (by omega)
  have c3 := cfg_run 163 (run 163 s)
  simp only [cfg, Prod.mk.injEq] at c3
  obtain ⟨c31, c32, c33, c34⟩ := c3
  have hni1 : ¬ (run 163 (run 163 s)).i < 163 := by rw [d2]; exact hni
  have hn31 : ¬ ((run 163 (run 163 s)).beat_type = 'V' ∧
      (run 163 (run 163 s)).p = (run 163 (run 163 s)).ab_beat_freq ∧
      (run 163 (run 163 s)).k < 163) := by
    rw [d4]; simp
  have hsel : sel_base (run 163 (run 163 s)) = (B : Int) := by
    unfold sel_base
    rw [d5, a5, c31, c32, c34, c11, c12, c14, hV, hp, hB]; simp
  obtain ⟨b1, b2, b3, b4, b5, b6⟩ :=
    ticks_base B 0 (run 163 (run 163 s)) hni1 hn31 (by rw [d3, a3, hj]; simp)
      (by rw [hsel]; simp)
  have c2 := cfg_run B (run 163 (run 163 s))
  simp only [cfg, Prod.mk.injEq] at c2
  obtain ⟨c21, c22, c23, c24⟩ := c2
  have hni2 : ¬ (run B (run 163 (run 163 s))).i < 163 := by rw [b2]; exact hni1
  have hn32 : ¬ ((run B (run 163 (run 163 s))).beat_type = 'V' ∧
      (run B (run 163 (run 163 s))).p = (run B (run 163 (run 163 s))).ab_beat_freq ∧
      (run B (run 163 (run 163 s))).k < 163) := by
    rw [c21, c22, b5, b4]; exact hn31
  have hnj : ¬ (run B (run 163 (run 163 s))).j < sel_base (run B (run 163 (run 163 s))) := by
    rw [b3, b6, hsel]; simp
  have hst := step_reset _ hni2 hn32 hnj
  have hsa := sampleAt_reset _ hni2 hn32 hnj
  have hrun : run (163 + 163 + B + 1) s = step (run B (run 163 (run 163 s))) := by
    rw [run_add, run_add, run_add, run_one]
  refine ⟨?_, ?_, ?_⟩
  · rw [ticks_add, ticks_add, ticks_add]
    simp only [run_add]
    rw [a1, d1, b1, ticks_one, hsa]
    simp [ecg1_run, ecg3_run, baseline_run, List.range_eq_range']
  · rw [hrun, hst]; simp [CycleStart]
  · rw [hrun, hst]; simp only []; rw [b5, d5, a5, c22, c32, c12, if_pos hp]

/-! ## Facts about `kbd_IO` -/

/-- The function `kbd_IO` in closed form, field by field. -/
theorem kbd_IO_eq (inp : KbdInput) (s : State) :
    kbd_IO inp s =
      { s with
        input1 := if inp.mode = 'N' ∨ inp.mode = 'n' then inp.mode
                  else if inp.mode = 'V' ∨ inp.mode = 'v' then inp.mode
                  else if inp.mode = 'S' ∨ inp.mode = 's' then inp.mode else 'N',
        beat_type := kbd_beat_type inp s,
        ab_beat_freq := if inp.mode = 'N' ∨ inp.mode = 'n' then s.ab_beat_freq
                  else if inp.mode = 'V' ∨ inp.mode = 'v' then inp.numb_beats
                  else if inp.mode = 'S' ∨ inp.mode = 's' then inp.numb_beats
                  else s.ab_beat_freq,
        hr := kbd_hr inp,
        iso_pts := Int.tdiv 21600 (kbd_hr inp) - 163,
        iso_pts3 := 163 + 2 * (Int.tdiv 21600 (kbd_hr inp) - 163) - 163,
        base_pts := Int.tdiv 21600 (kbd_hr inp) - 163,
        ampl_60Hz := if inp.add_noise = 'Y' ∨ inp.add_noise = 'y'
                  then get_percent_noise inp.pct_60Hz / 100 else s.ampl_60Hz,
        ampl_rand := if inp.add_noise = 'Y' ∨ inp.add_noise = 'y'
                  then get_percent_noise inp.pct_rand / 100 else s.ampl_rand,
        ampl_lf := if inp.add_noise = 'Y' ∨ inp.add_noise = 'y'
                  then get_percent_noise inp.pct_lf / 100 else s.ampl_lf } := by
  simp only [ kbd_IO, kbd_beat_type, kbd_hr, BUFFER_SIZE1, BUFFER_SIZE3]
  by_cases hN : inp.mode = 'N' ∨ inp.mode = 'n' <;>
    by_cases hV : inp.mode = 'V' ∨ inp.mode = 'v' <;>
    by_cases hS : inp.mode = 'S' ∨ inp.mode = 's' <;>
    by_cases hh : inp.hr < 40 ∨ inp.hr > 120 <;>
    by_cases hY : inp.add_noise = 'Y' ∨ inp.add_noise = 'y' <;>
    simp only [hN, hV, hS, hh, hY, if_true, if_false]

/-- The function `kbd_IO` leaves the playback position, the noise phase and
the pulse untouched. -/
theorem kbd_IO_playback (inp : KbdInput) (s : State) :
    ( kbd_IO inp s).i = s.i ∧ ( kbd_IO inp s).j = s.j ∧ ( kbd_IO inp s).k = s.k ∧
    ( kbd_IO inp s).p = s.p ∧ ( kbd_IO inp s).m = s.m ∧ ( kbd_IO inp s).n = s.n ∧
    ( kbd_IO inp s).QRS_led = s.QRS_led := by
  rw [kbd_IO_eq]
  exact ⟨rfl, rfl, rfl, rfl, rfl, rfl, rfl⟩

theorem kbd_IO_base_pts (inp : KbdInput) (s : State) :
    ( kbd_IO inp s).base_pts = ( kbd_IO inp s).iso_pts := by
  rw [kbd_IO_eq]

theorem kbd_IO_iso_pts3 (inp : KbdInput) (s : State) :
    ( kbd_IO inp s).iso_pts3 = 163 + 2 * ( kbd_IO inp s).iso_pts - 163 := by
  rw [kbd_IO_eq]

theorem kbd_IO_iso_pts (inp : KbdInput) (s : State) (h40 : 40 ≤ inp.hr)
    (h120 : inp.hr ≤ 120) :
    ( kbd_IO inp s).iso_pts = Int.tdiv 21600 inp.hr - 163 := by
  have h : ¬ (inp.hr < 40 ∨ inp.hr > 120) := by omega
  rw [kbd_IO_eq]
  simp only [kbd_hr, if_neg h]

theorem kbd_IO_mode_V (inp : KbdInput) (s : State)
    (hmode : inp.mode = 'V' ∨ inp.mode = 'v') :
    ( kbd_IO inp s).beat_type = 'V' ∧ ( kbd_IO inp s).ab_beat_freq = inp.numb_beats := by
  have hN : ¬ (inp.mode = 'N' ∨ inp.mode = 'n') := by
    rcases hmode with h | h <;> rw [h] <;> decide
  rw [kbd_IO_eq]
  simp only [kbd_beat_type, if_neg hN, if_pos hmode, and_self]

theorem kbd_IO_mode_S (inp : KbdInput) (s : State)
    (hmode : inp.mode = 'S' ∨ inp.mode = 's') :
    ( kbd_IO inp s).beat_type = 'S' ∧ ( kbd_IO inp s).ab_beat_freq = inp.numb_beats := by
  have hN : ¬ (inp.mode = 'N' ∨ inp.mode = 'n') := by
    rcases hmode with h | h <;> rw [h] <;> decide
  have hV : ¬ (inp.mode = 'V' ∨ inp.mode = 'v') := by
    rcases hmode with h | h <;> rw [h] <;> decide
  rw [kbd_IO_eq]
  simp only [kbd_beat_type, if_neg hN, if_neg hV, if_pos hmode, and_self]

theorem kbd_IO_mode_N (inp : KbdInput) (s : State)
    (hmode : inp.mode = 'N' ∨ inp.mode = 'n') :
    ( kbd_IO inp s).beat_type = 'N' := by
  rw [kbd_IO_eq]
  simp only [kbd_beat_type, if_pos hmode]

/-- For a heart rate in the accepted range the truncated quotient is the
Euclidean one and lies between 180 and 540. -/
theorem tdiv_hr (hr : Int) (h40 : 40 ≤ hr) (h120 : hr ≤ 120) :
    Int.tdiv 21600 hr = 21600 / hr ∧ 180 ≤ 21600 / hr ∧ 21600 / hr ≤ 540 ∧
    (21600 / hr) * hr ≤ 21600 ∧ 21600 < (21600 / hr + 1) * hr := by
  have hpos : (0 : Int) < hr := by omega
  refine ⟨Int.tdiv_eq_ediv (by decide) (by omega), ?_, ?_, ?_, ?_⟩
  · exact Int.le_ediv_of_mul_le hpos (by omega)
  · exact Int.le_of_lt_add_one (Int.ediv_lt_of_lt_mul hpos (by omega))
  · exact Int.ediv_mul_le 21600 (by omega)
  · exact Int.lt_ediv_add_one_mul_self 21600 hpos

/-- For a heart rate in the accepted range both isoelectric lengths are
positive. -/
theorem kbd_IO_iso_bounds (inp : KbdInput) (s : State) (h40 : 40 ≤ inp.hr)
    (h120 : inp.hr ≤ 120) :
    17 ≤ ( kbd_IO inp s).iso_pts ∧ ( kbd_IO inp s).iso_pts ≤ 377 ∧
    34 ≤ ( kbd_IO inp s).iso_pts3 := by
  have h1 := kbd_IO_iso_pts inp s h40 h120
  have h2 := kbd_IO_iso_pts3 inp s
  obtain ⟨e, lo, hi, _, _⟩ := tdiv_hr inp.hr h40 h120
  rw [e] at h1
  omega

/-! ## The invariant -/

theorem Inv_kbd_IO_init (inp : KbdInput) : Inv ( kbd_IO inp init) := by
  obtain ⟨hi, hj, hk, _, _, _, hl⟩ := kbd_IO_playback inp init
  have hb := kbd_IO_base_pts inp init
  unfold Inv
  rw [hi, hj, hk, hl]
  exact ⟨by decide, by decide, by decide, by decide, by decide, fun _ => ⟨rfl, rfl, hb⟩,
    fun h => absurd rfl h, by decide⟩

theorem Inv_step (s : State) (h : Inv s) : Inv (step s) := by
  obtain ⟨i0, i1, k0, k1, j0, hz, hkv, hled⟩ := h
  rcases step_cases s with ⟨c, h, _⟩ | ⟨c, c3, h, _⟩ | ⟨c, c3, cj, h, _⟩ | ⟨c, c3, cj, h, _⟩
  · rw [h]
    obtain ⟨z1, z2, z3⟩ := hz c
    refine ⟨?_, ?_, ?_, ?_, ?_, ?_, ?_, ?_⟩ <;> simp only []
    · omega
    · omega
    · omega
    · omega
    · omega
    · intro _; exact ⟨z1, z2, z3⟩
    · exact hkv
    · rw [hled, z2]; split_ifs <;> omega
  · rw [h]
    obtain ⟨cV, cp, ck⟩ := c3
    refine ⟨?_, ?_, ?_, ?_, ?_, ?_, ?_, ?_⟩ <;> simp only []
    · omega
    · omega
    · omega
    · omega
    · omega
    · intro hlt; exact absurd hlt c
    · intro _; exact ⟨cV, cp⟩
    · rw [hled]; split_ifs <;> omega
  · rw [h]
    refine ⟨?_, ?_, ?_, ?_, ?_, ?_, ?_, ?_⟩ <;> simp only []
    · omega
    · omega
    · omega
    · omega
    · omega
    · intro hlt; exact absurd hlt c
    · exact hkv
    · exact hled
  · rw [h]
    refine ⟨?_, ?_, ?_, ?_, ?_, ?_, ?_, ?_⟩ <;> simp only []
    · omega
    · omega
    · omega
    · omega
    · omega
    · simp
    · simp
    · have hk163 : s.k = 0 ∨ s.k = 163 := by
        by_cases hk0 : s.k = 0
        · exact Or.inl hk0
        · obtain ⟨hV, hp⟩ := hkv hk0
          have : ¬ s.k < 163 := fun hlt => c3 ⟨hV, hp, hlt⟩
          exact Or.inr (by omega)
      rw [hled, if_neg (by omega)]; simp

theorem Inv_run (t : Nat) (s : State) (h : Inv s) : Inv (run t s) := by
  induction t generalizing s with
  | zero => exact h
  | succ t ih => exact ih (step s) (Inv_step s h)

/-- In a run from a fresh session, a state with `i = 0` is the start of a
cycle. -/
theorem cycleStart_of_i (inp : KbdInput) (t : Nat)
    (hi : (run t ( kbd_IO inp init)).i = 0) : CycleStart (run t ( kbd_IO inp init)) := by
  obtain ⟨_, _, _, _, _, hz, _, _⟩ := Inv_run t _ (Inv_kbd_IO_init inp)
  obtain ⟨z1, z2, z3⟩ := hz (by omega)
  exact ⟨hi, z1, z2, z3⟩

/-! ## Rhythm timing -/

/-- C2 (counterexample).  At heart rate 41 the beat period computed by
`kbd_IO` is 526, whereas the nearest integer to `360 * 60 / 41 = 526.83`
is 527. -/
theorem beat_period_not_round_at_41 :
    BUFFER_SIZE1 + ( kbd_IO (quiet 'N' 1 41) init).iso_pts = 526 ∧
    round_beat_period 41 = 527 ∧
    BUFFER_SIZE1 + ( kbd_IO (quiet 'N' 1 41) init).iso_pts ≠ round_beat_period 41 := by
  have h1 : BUFFER_SIZE1 + ( kbd_IO (quiet 'N' 1 41) init).iso_pts = 526 := by decide
  have h2 : round_beat_period 41 = 527 := by
    unfold round_beat_period
    rw [round_eq, Int.floor_eq_iff]
    norm_num
  refine ⟨h1, h2, ?_⟩
  rw [h1, h2]
  decide

/-- C2 (amended).  For every heart rate accepted by `kbd_IO` (40 to 120) the
beat period `BUFFER_SIZE1 + iso_pts` is the floor of the exact quotient
`360 * 60 / hr`: the integer division truncates, it does not round. -/
theorem beat_period_is_floor (inp : KbdInput) (s : State) (h40 : 40 ≤ inp.hr)
    (h120 : inp.hr ≤ 120) :
    BUFFER_SIZE1 + ( kbd_IO inp s).iso_pts = ⌊(360 * 60 : ℚ) / (inp.hr : ℚ)⌋ := by
  obtain ⟨e, _, _, lo, hi⟩ := tdiv_hr inp.hr h40 h120
  have hpos : (0 : ℚ) < (inp.hr : ℚ) := by
    have : (0 : Int) < inp.hr := by omega
    exact_mod_cast this
  rw [kbd_IO_iso_pts inp s h40 h120, e]
  have hq : BUFFER_SIZE1 + (21600 / inp.hr - 163) = 21600 / inp.hr := by
    unfold BUFFER_SIZE1; omega
  rw [hq]
  symm
  rw [Int.floor_eq_iff]
  constructor
  · rw [le_div_iff₀ hpos]
    have : ((21600 / inp.hr * inp.hr : Int) : ℚ) ≤ ((21600 : Int) : ℚ) := by exact_mod_cast lo
    push_cast at this
    norm_num
    linarith
  · rw [div_lt_iff₀ hpos]
    have : ((21600 : Int) : ℚ) < (((21600 / inp.hr + 1) * inp.hr : Int) : ℚ) := by
      exact_mod_cast hi
    push_cast at this
    norm_num
    linarith

/-- C2 (witness).  At 60 beats per minute the period is 360. -/
theorem beat_period_is_floor_witness :
    BUFFER_SIZE1 + ( kbd_IO (quiet 'N' 1 60) init).iso_pts
      = ⌊(360 * 60 : ℚ) / ((quiet 'N' 1 60).hr : ℚ)⌋ :=
  beat_period_is_floor (quiet 'N' 1 60) init (by decide) (by decide)

/-! ## Counting samples -/

theorem sample_count_append (l1 l2 : List (List Event)) :
    sample_count (l1 ++ l2) = sample_count l1 + sample_count l2 := by
  simp [sample_count]

theorem sample_count_singles (f : Nat → Event) (l : List Nat) :
    sample_count (l.map (fun x => [f x])) = l.length := by
  induction l with
  | nil => rfl
  | cons a l ih =>
    simp only [sample_count, List.map_cons, List.sum_cons, List.length_cons,
      List.length_singleton, List.length_nil] at ih ⊢
    omega

theorem sample_count_ecg1_run : sample_count ecg1_run = 163 := by
  unfold ecg1_run
  rw [sample_count_singles (fun x => Event.ECG1 (x : Int))]
  simp

theorem sample_count_ecg3_run : sample_count ecg3_run = 163 := by
  unfold ecg3_run
  rw [sample_count_singles (fun x => Event.ECG3 (x : Int))]
  simp

theorem sample_count_baseline_run (len : Nat) : sample_count (baseline_run len) = len := by
  unfold baseline_run
  rw [sample_count_singles (fun x => Event.baseline (x : Int))]
  simp

theorem sample_count_normal_cycle (iso : Nat) :
    sample_count (normal_cycle iso) = 163 + iso := by
  rw [normal_cycle, sample_count_append, sample_count_append, sample_count_ecg1_run,
    sample_count_baseline_run]
  rfl

theorem sample_count_pvc_cycle (iso3 : Nat) :
    sample_count (pvc_cycle iso3) = 163 + 163 + iso3 := by
  rw [pvc_cycle, sample_count_append, sample_count_append, sample_count_append,
    sample_count_ecg1_run, sample_count_ecg3_run, sample_count_baseline_run]
  rfl

theorem sample_count_skip_cycle (iso : Nat) :
    sample_count (skip_cycle iso) = 163 + (2 * iso + 163) := by
  rw [skip_cycle, sample_count_append, sample_count_append, sample_count_ecg1_run,
    sample_count_baseline_run]
  rfl

/-! ## PVC mode -/

/-- C3.  In PVC mode, for every heart rate from 40 to 120, every cycle of a
session that starts with the beat counter `p` equal to `ab_beat_freq` writes,
one sample per tick, the 163 samples of ECG1, the 163 samples of ECG3 and then
exactly `iso_pts3` baseline samples, followed by the tick that ends the cycle
and writes nothing; these are `2 * (BUFFER_SIZE1 + iso_pts)` samples, twice the
`BUFFER_SIZE1 + iso_pts` samples of a cycle without abnormal beat. -/
theorem pvc_triggering_cycle (inp : KbdInput) (t : Nat)
    (hmode : inp.mode = 'V' ∨ inp.mode = 'v') (h40 : 40 ≤ inp.hr) (h120 : inp.hr ≤ 120)
    (hi : (run t ( kbd_IO inp init)).i = 0)
    (hp : (run t ( kbd_IO inp init)).p = inp.numb_beats) :
    ticks (163 + 163 + ( kbd_IO inp init).iso_pts3.toNat + 1) (run t ( kbd_IO inp init))
      = ecg1_run ++ ecg3_run ++ baseline_run ( kbd_IO inp init).iso_pts3.toNat ++ [[]] ∧
    (( kbd_IO inp init).iso_pts3.toNat : Int) = ( kbd_IO inp init).iso_pts3 ∧
    (sample_count (ticks (163 + 163 + ( kbd_IO inp init).iso_pts3.toNat + 1)
        (run t ( kbd_IO inp init))) : Int) = 2 * (BUFFER_SIZE1 + ( kbd_IO inp init).iso_pts) ∧
    (run (163 + 163 + ( kbd_IO inp init).iso_pts3.toNat + 1) (run t ( kbd_IO inp init))).i = 0 ∧
    (∀ u : Nat, (run u ( kbd_IO inp init)).i = 0 →
      (run u ( kbd_IO inp init)).p ≠ inp.numb_beats →
      ticks (163 + ( kbd_IO inp init).iso_pts.toNat + 1) (run u ( kbd_IO inp init))
        = normal_cycle ( kbd_IO inp init).iso_pts.toNat ∧
      (sample_count (normal_cycle ( kbd_IO inp init).iso_pts.toNat) : Int)
        = BUFFER_SIZE1 + ( kbd_IO inp init).iso_pts) := by
  obtain ⟨hV, hab⟩ := kbd_IO_mode_V inp init hmode
  obtain ⟨b1, b2, b3⟩ := kbd_IO_iso_bounds inp init h40 h120
  have e3 := kbd_IO_iso_pts3 inp init
  have hI3 : (( kbd_IO inp init).iso_pts3.toNat : Int) = ( kbd_IO inp init).iso_pts3 :=
    Int.toNat_of_nonneg (by omega)
  have hI : (( kbd_IO inp init).iso_pts.toNat : Int) = ( kbd_IO inp init).iso_pts :=
    Int.toNat_of_nonneg (by omega)
  have hcs := cycleStart_of_i inp t hi
  obtain ⟨c1, c2, c3⟩ := cycle_pvc (run t ( kbd_IO inp init)) ( kbd_IO inp init).iso_pts3.toNat hcs
    (by rw [run_beat_type]; exact hV) (by rw [run_ab_beat_freq, hp, hab])
    (by rw [run_iso_pts3, hI3])
  refine ⟨c1, hI3, ?_, c2.1, ?_⟩
  · rw [c1]
    have := sample_count_pvc_cycle ( kbd_IO inp init).iso_pts3.toNat
    unfold pvc_cycle at this
    rw [this]
    unfold BUFFER_SIZE1
    push_cast
    omega
  · intro u hu hpu
    have hcu := cycleStart_of_i inp u hu
    have hnv : ¬ ((run u ( kbd_IO inp init)).beat_type = 'V' ∧
        (run u ( kbd_IO inp init)).p = (run u ( kbd_IO inp init)).ab_beat_freq) := by
      rw [run_ab_beat_freq, hab]; exact fun h => hpu h.2
    have hsel : sel_base (run u ( kbd_IO inp init)) = (( kbd_IO inp init).iso_pts.toNat : Int) := by
      unfold sel_base
      rw [run_ab_beat_freq, run_beat_type, run_iso_pts, hab, hV, hcu.2.2.2, run_iso_pts, hI]
      simp [hpu]
    obtain ⟨d1, _, _⟩ := cycle_no_pvc _ _ hcu hnv hsel
    refine ⟨d1, ?_⟩
    rw [sample_count_normal_cycle]
    unfold BUFFER_SIZE1
    push_cast
    omega

/-- C3 (witness).  Heart rate 60 and a PVC after every beat: the first cycle
of the session is a triggering cycle. -/
theorem pvc_triggering_cycle_witness :
    ticks (163 + 163 + ( kbd_IO (quiet 'V' 1 60) init).iso_pts3.toNat + 1)
        (run 0 ( kbd_IO (quiet 'V' 1 60) init))
      = ecg1_run ++ ecg3_run ++ baseline_run ( kbd_IO (quiet 'V' 1 60) init).iso_pts3.toNat
          ++ [[]] ∧
    ( kbd_IO (quiet 'V' 1 60) init).iso_pts3.toNat = 394 :=
  ⟨(pvc_triggering_cycle (quiet 'V' 1 60) 0 (Or.inl rfl) (by decide) (by decide)
      (by decide) (by decide)).1, by decide⟩

theorem cycles_add (a b : Nat) (c : List (List Event)) :
    cycles (a + b) c = cycles a c ++ cycles b c := by
  induction a with
  | zero => simp [cycles]
  | succ a ih => rw [Nat.succ_add, cycles, ih, cycles, List.append_assoc]

/-- In PVC mode, `d` cycles before the beat counter reaches `ab_beat_freq`:
`d` cycles without abnormal beat. -/
theorem pvc_normal_cycles (I : Nat) (K : Int) (d : Nat) : ∀ (s : State), CycleStart s →
    s.beat_type = 'V' → s.iso_pts = (I : Int) → s.ab_beat_freq = K → s.p + d = K →
    ticks (d * (163 + I + 1)) s = cycles d (normal_cycle I) ∧
    CycleStart (run (d * (163 + I + 1)) s) ∧ (run (d * (163 + I + 1)) s).p = K := by
  induction d with
  | zero =>
    intro s hs _ _ _ hp
    refine ⟨by simp [ticks, cycles], by simpa [run] using hs, ?_⟩
    simp only [Nat.zero_mul, run]
    omega
  | succ d ih =>
    intro s hs hV hI hK hp
    have hne : s.p ≠ s.ab_beat_freq := by rw [hK]; push_cast at hp; omega
    have hnv : ¬ (s.beat_type = 'V' ∧ s.p = s.ab_beat_freq) := fun h => hne h.2
    have hsel : sel_base s = (I : Int) := by
      unfold sel_base
      rw [hV, hs.2.2.2, hI]
      simp [hne]
    obtain ⟨a1, a2, a3⟩ := cycle_no_pvc s I hs hnv hsel
    rw [if_neg hne] at a3
    obtain ⟨b1, b2, b3⟩ := ih (run (163 + I + 1) s) a2 (by rw [run_beat_type]; exact hV)
      (by rw [run_iso_pts]; exact hI) (by rw [run_ab_beat_freq]; exact hK)
      (by rw [a3]; push_cast at hp; omega)
    have hmul : (d + 1) * (163 + I + 1) = (163 + I + 1) + d * (163 + I + 1) := by ring
    rw [hmul, ticks_add (163 + I + 1) (d * (163 + I + 1)) s,
      run_add (163 + I + 1) (d * (163 + I + 1)) s]
    refine ⟨?_, b2, b3⟩
    rw [a1, b1]
    rfl

/-- In PVC mode one period of the rhythm, from a cycle start with `p = 1`:
`K - 1` cycles without abnormal beat, then one cycle with a PVC, after which
the beat counter is 1 again. -/
theorem pvc_period (I I3 K : Nat) (s : State) (hs : CycleStart s) (hV : s.beat_type = 'V')
    (hI : s.iso_pts = (I : Int)) (hI3 : s.iso_pts3 = (I3 : Int))
    (hK : s.ab_beat_freq = (K : Int)) (hK1 : 1 ≤ K) (hp : s.p = 1) :
    ticks ((K - 1) * (163 + I + 1) + (163 + 163 + I3 + 1)) s
      = cycles (K - 1) (normal_cycle I) ++ pvc_cycle I3 ∧
    CycleStart (run ((K - 1) * (163 + I + 1) + (163 + 163 + I3 + 1)) s) ∧
    (run ((K - 1) * (163 + I + 1) + (163 + 163 + I3 + 1)) s).p = 1 := by
  obtain ⟨a1, a2, a3⟩ := pvc_normal_cycles I (K : Int) (K - 1) s hs hV hI hK
    (by rw [hp]; push_cast [hK1]; omega)
  obtain ⟨b1, b2, b3⟩ := cycle_pvc (run ((K - 1) * (163 + I + 1)) s) I3 a2
    (by rw [run_beat_type]; exact hV) (by rw [a3, run_ab_beat_freq, hK])
    (by rw [run_iso_pts3]; exact hI3)
  rw [ticks_add ((K - 1) * (163 + I + 1)) (163 + 163 + I3 + 1) s,
    run_add ((K - 1) * (163 + I + 1)) (163 + 163 + I3 + 1) s]
  refine ⟨?_, b2, b3⟩
  rw [a1, b1]
  rfl

/-- In PVC mode the rhythm repeats the period for ever. -/
theorem pvc_periods (I I3 K : Nat) (r : Nat) : ∀ (s : State), CycleStart s →
    s.beat_type = 'V' → s.iso_pts = (I : Int) → s.iso_pts3 = (I3 : Int) →
    s.ab_beat_freq = (K : Int) → 1 ≤ K → s.p = 1 →
    ticks (r * ((K - 1) * (163 + I + 1) + (163 + 163 + I3 + 1))) s
      = cycles r (cycles (K - 1) (normal_cycle I) ++ pvc_cycle I3) := by
  induction r with
  | zero => intro s _ _ _ _ _ _ _; simp [ticks, cycles]
  | succ r ih =>
    intro s hs hV hI hI3 hK hK1 hp
    obtain ⟨a1, a2, a3⟩ := pvc_period I I3 K s hs hV hI hI3 hK hK1 hp
    have hmul : (r + 1) * ((K - 1) * (163 + I + 1) + (163 + 163 + I3 + 1))
        = ((K - 1) * (163 + I + 1) + (163 + 163 + I3 + 1))
          + r * ((K - 1) * (163 + I + 1) + (163 + 163 + I3 + 1)) := by ring
    rw [hmul, ticks_add ((K - 1) * (163 + I + 1) + (163 + 163 + I3 + 1))
      (r * ((K - 1) * (163 + I + 1) + (163 + 163 + I3 + 1))) s, a1, cycles]
    rw [ih _ a2 (by rw [run_beat_type]; exact hV) (by rw [run_iso_pts]; exact hI)
      (by rw [run_iso_pts3]; exact hI3) (by rw [run_ab_beat_freq]; exact hK) hK1 a3]

/-- C4.  In PVC mode with `ab_beat_freq = k >= 1` and a heart rate from 40 to
120, the ticks of a session from its initial state (`p = 1`) repeat one
pattern for ever: `k - 1` cycles that play ECG1 and `iso_pts` baseline
samples, then one cycle that plays ECG1 (the `k`-th playback), directly
followed by ECG3 and `iso_pts3` baseline samples.  So each period has `k`
playbacks of ECG1 and one of ECG3, right after the `k`-th ECG1. -/
theorem pvc_rhythm_periodic (inp : KbdInput) (r : Nat)
    (hmode : inp.mode = 'V' ∨ inp.mode = 'v') (hk : 1 ≤ inp.numb_beats)
    (h40 : 40 ≤ inp.hr) (h120 : inp.hr ≤ 120) :
    ticks (r * ((inp.numb_beats.toNat - 1) * (163 + ( kbd_IO inp init).iso_pts.toNat + 1)
          + (163 + 163 + ( kbd_IO inp init).iso_pts3.toNat + 1))) ( kbd_IO inp init)
      = cycles r (cycles (inp.numb_beats.toNat - 1)
            (normal_cycle ( kbd_IO inp init).iso_pts.toNat)
          ++ pvc_cycle ( kbd_IO inp init).iso_pts3.toNat) ∧
    ( kbd_IO inp init).ab_beat_freq = (inp.numb_beats.toNat : Int) ∧
    ( kbd_IO inp init).iso_pts = (( kbd_IO inp init).iso_pts.toNat : Int) ∧
    ( kbd_IO inp init).iso_pts3 = (( kbd_IO inp init).iso_pts3.toNat : Int) := by
  obtain ⟨hV, hab⟩ := kbd_IO_mode_V inp init hmode
  obtain ⟨b1, b2, b3⟩ := kbd_IO_iso_bounds inp init h40 h120
  have hI3 : ( kbd_IO inp init).iso_pts3 = (( kbd_IO inp init).iso_pts3.toNat : Int) :=
    (Int.toNat_of_nonneg (by omega)).symm
  have hI : ( kbd_IO inp init).iso_pts = (( kbd_IO inp init).iso_pts.toNat : Int) :=
    (Int.toNat_of_nonneg (by omega)).symm
  have hK : ( kbd_IO inp init).ab_beat_freq = (inp.numb_beats.toNat : Int) := by
    rw [hab]; exact (Int.toNat_of_nonneg (by omega)).symm
  have hcs : CycleStart ( kbd_IO inp init) := cycleStart_of_i inp 0 (kbd_IO_playback inp init).1
  refine ⟨?_, hK, hI, hI3⟩
  exact pvc_periods _ _ _ r _ hcs hV hI hI3 hK (by omega) (kbd_IO_playback inp init).2.2.2.1

/-- C4 (witness).  Heart rate 60 and `ab_beat_freq = 3`: `iso_pts = 197`,
`iso_pts3 = 394`, and each period is two normal cycles followed by a cycle
with ECG1, ECG3 and 394 baseline samples. -/
theorem pvc_rhythm_periodic_witness :
    ticks (2 * (((3 : Int).toNat - 1) * (163 + ( kbd_IO (quiet 'V' 3 60) init).iso_pts.toNat + 1)
          + (163 + 163 + ( kbd_IO (quiet 'V' 3 60) init).iso_pts3.toNat + 1)))
        ( kbd_IO (quiet 'V' 3 60) init)
      = cycles 2 (cycles ((3 : Int).toNat - 1)
            (normal_cycle ( kbd_IO (quiet 'V' 3 60) init).iso_pts.toNat)
          ++ pvc_cycle ( kbd_IO (quiet 'V' 3 60) init).iso_pts3.toNat) ∧
    ( kbd_IO (quiet 'V' 3 60) init).iso_pts = 197 ∧
    ( kbd_IO (quiet 'V' 3 60) init).iso_pts3 = 394 :=
  ⟨(pvc_rhythm_periodic (quiet 'V' 3 60) 2 (Or.inl rfl) (by decide) (by decide)
      (by decide)).1, by decide, by decide⟩

/-- Inside a cycle in which the PVC template is not played, no state has
`i = 0`: the next cycle starts only after the silent tick. -/
theorem cycle_no_pvc_inside (s : State) (B : Nat) (hs : CycleStart s)
    (hnv : ¬ (s.beat_type = 'V' ∧ s.p = s.ab_beat_freq))
    (hB : sel_base s = (B : Int)) (u : Nat) (h0 : 0 < u) (hu : u < 163 + B + 1) :
    (run u s).i ≠ 0 := by
  obtain ⟨hi, hj, hk, hb⟩ := hs
  by_cases hle : u ≤ 163
  · obtain ⟨_, a2, _⟩ := ticks_ecg1 u 0 s (by simp [hi]) (by omega)
    rw [a2]; push_cast; omega
  · obtain ⟨a1, a2, a3, a4, a5, a6⟩ := ticks_ecg1 163 0 s (by simp [hi]) (by omega)
    have c1 := cfg_run 163 s
    simp only [cfg, Prod.mk.injEq] at c1
    obtain ⟨c11, c12, c13, c14⟩ := c1
    have hsel : sel_base (run 163 s) = (B : Int) := by
      rw [← hB]; unfold sel_base; rw [a5, a6, c11, c12, c13, c14]
    have hni : ¬ (run 163 s).i < 163 := by rw [a2]; simp
    have hn3 : ¬ ((run 163 s).beat_type = 'V' ∧ (run 163 s).p = (run 163 s).ab_beat_freq ∧
        (run 163 s).k < 163) := by
      rw [c11, c12, a5]; exact fun h => hnv ⟨h.1, h.2.1⟩
    obtain ⟨_, b2, _⟩ :=
      ticks_base (u - 163) 0 (run 163 s) hni hn3 (by rw [a3, hj]; simp)
        (by rw [hsel]; push_cast; omega)
    have hadd : u = 163 + (u - 163) := by omega
    rw [hadd, run_add 163 (u - 163) s, b2, a2]
    simp

/-! ## Skipped-beat mode -/

/-- In skipped-beat mode, a cycle of a session that starts with
`p = ab_beat_freq`. -/
theorem skip_cycle_of_session (inp : KbdInput) (t : Nat)
    (hmode : inp.mode = 'S' ∨ inp.mode = 's') (h40 : 40 ≤ inp.hr) (h120 : inp.hr ≤ 120)
    (hi : (run t ( kbd_IO inp init)).i = 0)
    (hp : (run t ( kbd_IO inp init)).p = inp.numb_beats) :
    ticks (163 + (2 * ( kbd_IO inp init).iso_pts.toNat + 163) + 1) (run t ( kbd_IO inp init))
      = skip_cycle ( kbd_IO inp init).iso_pts.toNat ∧
    CycleStart (run (163 + (2 * ( kbd_IO inp init).iso_pts.toNat + 163) + 1)
      (run t ( kbd_IO inp init))) ∧
    (( kbd_IO inp init).iso_pts.toNat : Int) = ( kbd_IO inp init).iso_pts ∧
    (∀ u : Nat, 0 < u → u < 163 + (2 * ( kbd_IO inp init).iso_pts.toNat + 163) + 1 →
      (run u (run t ( kbd_IO inp init))).i ≠ 0) := by
  obtain ⟨hS, hab⟩ := kbd_IO_mode_S inp init hmode
  obtain ⟨b1, b2, b3⟩ := kbd_IO_iso_bounds inp init h40 h120
  have hI : (( kbd_IO inp init).iso_pts.toNat : Int) = ( kbd_IO inp init).iso_pts :=
    Int.toNat_of_nonneg (by omega)
  have hcs := cycleStart_of_i inp t hi
  have hnv : ¬ ((run t ( kbd_IO inp init)).beat_type = 'V' ∧
      (run t ( kbd_IO inp init)).p = (run t ( kbd_IO inp init)).ab_beat_freq) := by
    rw [run_beat_type, hS]; exact fun h => absurd h.1 (by decide)
  have hsel : sel_base (run t ( kbd_IO inp init))
      = ((2 * ( kbd_IO inp init).iso_pts.toNat + 163 : Nat) : Int) := by
    unfold sel_base
    rw [run_ab_beat_freq, run_beat_type, run_iso_pts, hab, hS, hp]
    simp [BUFFER_SIZE1, hI]
  obtain ⟨d1, d2, _⟩ := cycle_no_pvc _ _ hcs hnv hsel
  exact ⟨d1, d2, hI, fun u h0 hu => cycle_no_pvc_inside _ _ hcs hnv hsel u h0 hu⟩

/-- In skipped-beat mode, a cycle of a session that starts with
`p ≠ ab_beat_freq`. -/
theorem plain_cycle_of_skip_session (inp : KbdInput) (t : Nat)
    (hmode : inp.mode = 'S' ∨ inp.mode = 's') (h40 : 40 ≤ inp.hr) (h120 : inp.hr ≤ 120)
    (hi : (run t ( kbd_IO inp init)).i = 0)
    (hp : (run t ( kbd_IO inp init)).p ≠ inp.numb_beats) :
    ticks (163 + ( kbd_IO inp init).iso_pts.toNat + 1) (run t ( kbd_IO inp init))
      = normal_cycle ( kbd_IO inp init).iso_pts.toNat ∧
    CycleStart (run (163 + ( kbd_IO inp init).iso_pts.toNat + 1) (run t ( kbd_IO inp init))) ∧
    (( kbd_IO inp init).iso_pts.toNat : Int) = ( kbd_IO inp init).iso_pts ∧
    (∀ u : Nat, 0 < u → u < 163 + ( kbd_IO inp init).iso_pts.toNat + 1 →
      (run u (run t ( kbd_IO inp init))).i ≠ 0) := by
  obtain ⟨hS, hab⟩ := kbd_IO_mode_S inp init hmode
  obtain ⟨b1, b2, b3⟩ := kbd_IO_iso_bounds inp init h40 h120
  have hI : (( kbd_IO inp init).iso_pts.toNat : Int) = ( kbd_IO inp init).iso_pts :=
    Int.toNat_of_nonneg (by omega)
  have hcs := cycleStart_of_i inp t hi
  have hnv : ¬ ((run t ( kbd_IO inp init)).beat_type = 'V' ∧
      (run t ( kbd_IO inp init)).p = (run t ( kbd_IO inp init)).ab_beat_freq) := by
    rw [run_beat_type, hS]; exact fun h => absurd h.1 (by decide)
  have hsel : sel_base (run t ( kbd_IO inp init)) = (( kbd_IO inp init).iso_pts.toNat : Int) := by
    unfold sel_base
    rw [run_ab_beat_freq, run_beat_type, run_iso_pts, hab, hS, hcs.2.2.2, run_iso_pts, hI]
    simp [hp]
  obtain ⟨d1, d2, _⟩ := cycle_no_pvc _ _ hcs hnv hsel
  exact ⟨d1, d2, hI, fun u h0 hu => cycle_no_pvc_inside _ _ hcs hnv hsel u h0 hu⟩

/-- C5 (counterexample).  Skipped-beat mode, `ab_beat_freq = 1`, heart rate
60: the first cycle of the session has `p = ab_beat_freq`, and its first tick
writes the sample ECG1[0]; the template is not omitted. -/
theorem skipped_cycle_plays_ECG1 :
    ( kbd_IO (quiet 'S' 1 60) init).beat_type = 'S' ∧
    ( kbd_IO (quiet 'S' 1 60) init).p = ( kbd_IO (quiet 'S' 1 60) init).ab_beat_freq ∧
    ( kbd_IO (quiet 'S' 1 60) init).i = 0 ∧
    sampleAt ( kbd_IO (quiet 'S' 1 60) init) = [Event.ECG1 0] := by
  refine ⟨by decide, by decide, by decide, ?_⟩
  exact sampleAt_ecg1 _ (by decide)

/-- C5 (amended).  In skipped-beat mode with a heart rate from 40 to 120,
every cycle of a session that starts with `p = ab_beat_freq` first plays the
163 samples of ECG1 and then writes `2 * iso_pts + BUFFER_SIZE1` baseline
samples, one sample per tick, before the tick that ends the cycle and writes
nothing; no ECG3 sample is written in that cycle. -/
theorem skipped_triggering_cycle (inp : KbdInput) (t : Nat)
    (hmode : inp.mode = 'S' ∨ inp.mode = 's') (h40 : 40 ≤ inp.hr) (h120 : inp.hr ≤ 120)
    (hi : (run t ( kbd_IO inp init)).i = 0)
    (hp : (run t ( kbd_IO inp init)).p = inp.numb_beats) :
    ticks (163 + (2 * ( kbd_IO inp init).iso_pts.toNat + 163) + 1) (run t ( kbd_IO inp init))
      = ecg1_run ++ baseline_run (2 * ( kbd_IO inp init).iso_pts.toNat + 163) ++ [[]] ∧
    ((2 * ( kbd_IO inp init).iso_pts.toNat + 163 : Nat) : Int)
      = 2 * ( kbd_IO inp init).iso_pts + BUFFER_SIZE1 ∧
    (∀ l ∈ ticks (163 + (2 * ( kbd_IO inp init).iso_pts.toNat + 163) + 1)
        (run t ( kbd_IO inp init)), ∀ a : Int, Event.ECG3 a ∉ l) := by
  obtain ⟨h1, _, hI, _⟩ := skip_cycle_of_session inp t hmode h40 h120 hi hp
  refine ⟨h1, ?_, ?_⟩
  · unfold BUFFER_SIZE1; push_cast; omega
  · rw [h1]
    intro l hl a
    simp only [skip_cycle, ecg1_run, baseline_run, List.mem_append, List.mem_map,
      List.mem_singleton] at hl
    rcases hl with (⟨x, _, rfl⟩ | ⟨x, _, rfl⟩) | rfl <;> simp

/-- C5 (witness).  Heart rate 60 and `ab_beat_freq = 1`: the first cycle is
ECG1 followed by `2 * 197 + 163 = 557` baseline samples. -/
theorem skipped_triggering_cycle_witness :
    ticks (163 + (2 * ( kbd_IO (quiet 'S' 1 60) init).iso_pts.toNat + 163) + 1)
        (run 0 ( kbd_IO (quiet 'S' 1 60) init))
      = ecg1_run ++ baseline_run (2 * ( kbd_IO (quiet 'S' 1 60) init).iso_pts.toNat + 163)
          ++ [[]] ∧
    2 * ( kbd_IO (quiet 'S' 1 60) init).iso_pts.toNat + 163 = 557 :=
  ⟨(skipped_triggering_cycle (quiet 'S' 1 60) 0 (Or.inl rfl) (by decide) (by decide)
      (by decide) (by decide)).1, by decide⟩

/-- C6 (counterexample).  Skipped-beat mode, `ab_beat_freq = 1`, heart rate
60: the first cycle has `p = ab_beat_freq`; it runs for 721 ticks and writes
720 samples before the next cycle starts with ECG1[0], whereas
`BUFFER_SIZE1 + iso_pts` is 360. -/
theorem skipped_cycle_is_not_normal_length :
    ( kbd_IO (quiet 'S' 1 60) init).p = ( kbd_IO (quiet 'S' 1 60) init).ab_beat_freq ∧
    ticks 721 ( kbd_IO (quiet 'S' 1 60) init) = skip_cycle 197 ∧
    sample_count (ticks 721 ( kbd_IO (quiet 'S' 1 60) init)) = 720 ∧
    sampleAt (run 721 ( kbd_IO (quiet 'S' 1 60) init)) = [Event.ECG1 0] ∧
    BUFFER_SIZE1 + ( kbd_IO (quiet 'S' 1 60) init).iso_pts = 360 := by
  obtain ⟨h1, h2, _⟩ := skip_cycle_of_session (quiet 'S' 1 60) 0 (Or.inl rfl) (by decide)
    (by decide) (by decide) (by decide)
  have e : ( kbd_IO (quiet 'S' 1 60) init).iso_pts.toNat = 197 := by decide
  rw [e] at h1 h2
  refine ⟨by decide, h1, ?_, ?_, by decide⟩
  · have h3 : sample_count (ticks 721 (run 0 ( kbd_IO (quiet 'S' 1 60) init)))
        = sample_count (skip_cycle 197) := congrArg sample_count h1
    rw [sample_count_skip_cycle] at h3
    exact h3
  · have h4 := sampleAt_ecg1 _ (show (run 721 (run 0 ( kbd_IO (quiet 'S' 1 60) init))).i < 163 by
      rw [h2.1]; decide)
    rw [h2.1] at h4
    exact h4

/-- C6 (amended).  In skipped-beat mode with a heart rate from 40 to 120, a
cycle of a session that starts with `p = ab_beat_freq` is twice as long as
the others: it writes `2 * (BUFFER_SIZE1 + iso_pts)` samples before the next
cycle starts, whereas a cycle that starts with `p ≠ ab_beat_freq` writes
`BUFFER_SIZE1 + iso_pts` samples. -/
theorem skipped_cycle_length (inp : KbdInput) (t : Nat)
    (hmode : inp.mode = 'S' ∨ inp.mode = 's') (h40 : 40 ≤ inp.hr) (h120 : inp.hr ≤ 120)
    (hi : (run t ( kbd_IO inp init)).i = 0) :
    ((run t ( kbd_IO inp init)).p = inp.numb_beats →
      (sample_count (ticks (163 + (2 * ( kbd_IO inp init).iso_pts.toNat + 163) + 1)
        (run t ( kbd_IO inp init))) : Int) = 2 * (BUFFER_SIZE1 + ( kbd_IO inp init).iso_pts) ∧
      (run (163 + (2 * ( kbd_IO inp init).iso_pts.toNat + 163) + 1)
        (run t ( kbd_IO inp init))).i = 0 ∧
      (∀ u : Nat, 0 < u → u < 163 + (2 * ( kbd_IO inp init).iso_pts.toNat + 163) + 1 →
        (run u (run t ( kbd_IO inp init))).i ≠ 0)) ∧
    ((run t ( kbd_IO inp init)).p ≠ inp.numb_beats →
      (sample_count (ticks (163 + ( kbd_IO inp init).iso_pts.toNat + 1)
        (run t ( kbd_IO inp init))) : Int) = BUFFER_SIZE1 + ( kbd_IO inp init).iso_pts ∧
      (run (163 + ( kbd_IO inp init).iso_pts.toNat + 1) (run t ( kbd_IO inp init))).i = 0 ∧
      (∀ u : Nat, 0 < u → u < 163 + ( kbd_IO inp init).iso_pts.toNat + 1 →
        (run u (run t ( kbd_IO inp init))).i ≠ 0)) := by
  constructor
  · intro hp
    obtain ⟨h1, h2, hI, h3⟩ := skip_cycle_of_session inp t hmode h40 h120 hi hp
    refine ⟨?_, h2.1, h3⟩
    rw [h1, sample_count_skip_cycle]
    unfold BUFFER_SIZE1
    push_cast
    omega
  · intro hp
    obtain ⟨h1, h2, hI, h3⟩ := plain_cycle_of_skip_session inp t hmode h40 h120 hi hp
    refine ⟨?_, h2.1, h3⟩
    rw [h1, sample_count_normal_cycle]
    unfold BUFFER_SIZE1
    push_cast
    omega

/-- C6 (witness).  Heart rate 60: with `ab_beat_freq = 1` the first cycle of
the session writes 720 samples, twice `BUFFER_SIZE1 + iso_pts = 360`; with
`ab_beat_freq = 2` the first cycle has `p = 1` and writes 360 samples. -/
theorem skipped_cycle_length_witness :
    ((sample_count (ticks (163 + (2 * ( kbd_IO (quiet 'S' 1 60) init).iso_pts.toNat + 163) + 1)
        (run 0 ( kbd_IO (quiet 'S' 1 60) init))) : Int)
      = 2 * (BUFFER_SIZE1 + ( kbd_IO (quiet 'S' 1 60) init).iso_pts) ∧
    2 * (BUFFER_SIZE1 + ( kbd_IO (quiet 'S' 1 60) init).iso_pts) = 720) ∧
    ((sample_count (ticks (163 + ( kbd_IO (quiet 'S' 2 60) init).iso_pts.toNat + 1)
        (run 0 ( kbd_IO (quiet 'S' 2 60) init))) : Int)
      = BUFFER_SIZE1 + ( kbd_IO (quiet 'S' 2 60) init).iso_pts ∧
    BUFFER_SIZE1 + ( kbd_IO (quiet 'S' 2 60) init).iso_pts = 360) :=
  ⟨⟨((skipped_cycle_length (quiet 'S' 1 60) 0 (Or.inl rfl) (by decide) (by decide)
      (by decide)).1 (by decide)).1, by decide⟩,
   ⟨((skipped_cycle_length (quiet 'S' 2 60) 0 (Or.inl rfl) (by decide) (by decide)
      (by decide)).2 (by decide)).1, by decide⟩⟩

/-! ## The tick that ends a cycle -/

/-- The last state of a cycle in which the PVC template is not played: after
the normal template and `B` baseline samples the next call of `samp_out` takes
the branch that ends the cycle. -/
theorem cycle_no_pvc_last (s : State) (B : Nat) (hs : CycleStart s)
    (hnv : ¬ (s.beat_type = 'V' ∧ s.p = s.ab_beat_freq))
    (hB : sel_base s = (B : Int)) :
    ticks (163 + B) s = ecg1_run ++ baseline_run B ∧
    ¬ (run (163 + B) s).i < 163 ∧
    ¬ ((run (163 + B) s).beat_type = 'V' ∧
        (run (163 + B) s).p = (run (163 + B) s).ab_beat_freq ∧ (run (163 + B) s).k < 163) ∧
    ¬ (run (163 + B) s).j < sel_base (run (163 + B) s) := by
  obtain ⟨hi, hj, hk, hb⟩ := hs
  obtain ⟨a1, a2, a3, a4, a5, a6⟩ := ticks_ecg1 163 0 s (by simp [hi]) (by omega)
  have c1 := cfg_run 163 s
  simp only [cfg, Prod.mk.injEq] at c1
  obtain ⟨c11, c12, c13, c14⟩ := c1
  have hsel : sel_base (run 163 s) = (B : Int) := by
    rw [← hB]; unfold sel_base; rw [a5, a6, c11, c12, c13, c14]
  have hni : ¬ (run 163 s).i < 163 := by rw [a2]; simp
  have hn3 : ¬ ((run 163 s).beat_type = 'V' ∧ (run 163 s).p = (run 163 s).ab_beat_freq ∧
      (run 163 s).k < 163) := by
    rw [c11, c12, a5]; exact fun h => hnv ⟨h.1, h.2.1⟩
  obtain ⟨b1, b2, b3, b4, b5, b6⟩ :=
    ticks_base B 0 (run 163 s) hni hn3 (by rw [a3, hj]; simp) (by rw [hsel]; simp)
  have c2 := cfg_run B (run 163 s)
  simp only [cfg, Prod.mk.injEq] at c2
  obtain ⟨c21, c22, c23, c24⟩ := c2
  rw [ticks_add 163 B s, run_add 163 B s]
  refine ⟨?_, ?_, ?_, ?_⟩
  · rw [a1, b1]; simp [ecg1_run, baseline_run, List.range_eq_range']
  · rw [b2]; exact hni
  · rw [c21, c22, b5, b4]; exact hn3
  · rw [b3, b6, hsel]; simp

/-- The tick that ends a cycle produces no event at all. -/
theorem samp_out_reset_events (s : State) (h : ¬ s.i < 163)
    (h3 : ¬ (s.beat_type = 'V' ∧ s.p = s.ab_beat_freq ∧ s.k < 163))
    (hj : ¬ s.j < sel_base s) : (samp_out s).2 = [] := by
  rw [samp_out_iso_of s h h3, samp_out_iso_reset s hj]

/-- A cycle start of a session in Normal mode. -/
theorem normal_session_start (inp : KbdInput) (hmode : inp.mode = 'N' ∨ inp.mode = 'n')
    (h40 : 40 ≤ inp.hr) (h120 : inp.hr ≤ 120) :
    CycleStart ( kbd_IO inp init) ∧
    ¬ (( kbd_IO inp init).beat_type = 'V' ∧ ( kbd_IO inp init).p = ( kbd_IO inp init).ab_beat_freq) ∧
    sel_base ( kbd_IO inp init) = ((( kbd_IO inp init).iso_pts.toNat : Nat) : Int) := by
  have hN := kbd_IO_mode_N inp init hmode
  obtain ⟨b1, b2, b3⟩ := kbd_IO_iso_bounds inp init h40 h120
  have hI : ((( kbd_IO inp init).iso_pts.toNat : Nat) : Int) = ( kbd_IO inp init).iso_pts :=
    Int.toNat_of_nonneg (by omega)
  refine ⟨cycleStart_of_i inp 0 (kbd_IO_playback inp init).1, ?_, ?_⟩
  · rw [hN]; exact fun h => absurd h.1 (by decide)
  · unfold sel_base
    rw [hN, hI]
    simp

/-- The phase counters count samples, not ticks: after `t` ticks `m` has
advanced by the number of samples written, modulo 6, and `n` by the same
number modulo 1440. -/
theorem phase_counts_samples (t : Nat) : ∀ (s : State), 0 ≤ s.m → s.m ≤ 5 → 0 ≤ s.n →
    s.n ≤ 1439 →
    (run t s).m = (s.m + (sample_count (ticks t s) : Int)) % 6 ∧
    (run t s).n = (s.n + (sample_count (ticks t s) : Int)) % 1440 := by
  induction t with
  | zero =>
    intro s m0 m5 n0 n5
    simp only [run, ticks, sample_count, List.map_nil, List.sum_nil, Nat.cast_zero, add_zero]
    omega
  | succ t ih =>
    intro s m0 m5 n0 n5
    have hcount : sample_count (ticks (t + 1) s)
        = (sampleAt s).length + sample_count (ticks t (step s)) := by
      simp [ticks, sample_count]
    rw [run, hcount]
    have hm : ∀ x : Int, 0 ≤ x → x ≤ 5 → (if x + 1 > 5 then (0 : Int) else x + 1) = (x + 1) % 6 := by
      intro x _ _; split_ifs <;> omega
    have hn : ∀ x : Int, 0 ≤ x → x ≤ 1439 →
        (if x + 1 > 1439 then (0 : Int) else x + 1) = (x + 1) % 1440 := by
      intro x _ _; split_ifs <;> omega
    have hnext : ((sampleAt s).length = 1 ∧ (step s).m = (s.m + 1) % 6 ∧
          (step s).n = (s.n + 1) % 1440) ∨
        ((sampleAt s).length = 0 ∧ (step s).m = s.m ∧ (step s).n = s.n) := by
      rcases step_cases s with ⟨_, h, e⟩ | ⟨_, _, h, e⟩ | ⟨_, _, _, h, e⟩ | ⟨_, _, _, h, e⟩
      · left; rw [h, e]; exact ⟨rfl, hm s.m m0 m5, hn s.n n0 n5⟩
      · left; rw [h, e]; exact ⟨rfl, hm s.m m0 m5, hn s.n n0 n5⟩
      · left; rw [h, e]; exact ⟨rfl, hm s.m m0 m5, hn s.n n0 n5⟩
      · right; rw [h, e]; exact ⟨rfl, rfl, rfl⟩
    rcases hnext with ⟨l, e1, e2⟩ | ⟨l, e1, e2⟩
    · obtain ⟨r1, r2⟩ := ih (step s) (by omega) (by omega) (by omega) (by omega)
      rw [r1, r2, e1, e2, l]
      push_cast
      omega
    · obtain ⟨r1, r2⟩ := ih (step s) (by omega) (by omega) (by omega) (by omega)
      rw [r1, r2, e1, e2, l]
      push_cast
      omega

/-- The first cycle of a Normal session at 60 beats per minute: 163 template
samples, 197 baseline samples and the silent tick, after which the next cycle
starts. -/
theorem normal_60_first_cycle :
    ticks 360 ( kbd_IO (quiet 'N' 1 60) init) = ecg1_run ++ baseline_run 197 ∧
    ticks 361 ( kbd_IO (quiet 'N' 1 60) init) = normal_cycle 197 ∧
    (samp_out (run 360 ( kbd_IO (quiet 'N' 1 60) init))).2 = [] ∧
    (run 361 ( kbd_IO (quiet 'N' 1 60) init)).i = 0 := by
  obtain ⟨h1, h2, h3⟩ := normal_session_start (quiet 'N' 1 60) (Or.inl rfl) (by decide)
    (by decide)
  have e : ( kbd_IO (quiet 'N' 1 60) init).iso_pts.toNat = 197 := by decide
  rw [e] at h3
  obtain ⟨a1, a2, a3, a4⟩ := cycle_no_pvc_last _ 197 h1 h2 h3
  obtain ⟨b1, b2, _⟩ := cycle_no_pvc _ 197 h1 h2 h3
  exact ⟨a1, b1, samp_out_reset_events _ a2 a3 a4, b2.1⟩

/-- C1 (the code at the failing input).  Normal mode, heart rate 60:
`BUFFER_SIZE1 + iso_pts` is 360, but the tick that plays ECG1[0] is followed by
361 ticks before ECG1[0] is played again: 162 further template ticks, 197
baseline ticks, and one tick that writes nothing. -/
theorem normal_cycle_takes_361_ticks :
    BUFFER_SIZE1 + ( kbd_IO (quiet 'N' 1 60) init).iso_pts = 360 ∧
    ticks 362 ( kbd_IO (quiet 'N' 1 60) init)
      = ecg1_run ++ baseline_run 197 ++ [[]] ++ [[Event.ECG1 0]] := by
  obtain ⟨_, h1, _, h2⟩ := normal_60_first_cycle
  refine ⟨by decide, ?_⟩
  have h3 := sampleAt_ecg1 (run 361 ( kbd_IO (quiet 'N' 1 60) init)) (by rw [h2]; decide)
  rw [h2] at h3
  rw [ticks_add 361 1 ( kbd_IO (quiet 'N' 1 60) init), h1, ticks_one, h3]
  rfl

/-- C7 (the code at the failing input).  Normal mode, heart rate 60: after the
360 samples of the first cycle, the 361st call of `samp_out` produces no event
at all, so that tick writes no sample. -/
theorem cycle_end_tick_writes_no_sample :
    ticks 360 ( kbd_IO (quiet 'N' 1 60) init) = ecg1_run ++ baseline_run 197 ∧
    (samp_out (run 360 ( kbd_IO (quiet 'N' 1 60) init))).2 = [] ∧
    sampleAt (run 360 ( kbd_IO (quiet 'N' 1 60) init)) = [] := by
  obtain ⟨h0, _, h1, _⟩ := normal_60_first_cycle
  refine ⟨h0, h1, ?_⟩
  unfold sampleAt
  rw [h1]
  rfl

/-- C9 (the code at the failing input).  Normal mode, heart rate 60: after 360
ticks `m = 0` and `n = 360`; the 361st tick, which ends the cycle, leaves both
unchanged, so `m` is 0 after 361 ticks although 361 is not a multiple of 6,
and `n` is not `(n + 1) mod 1440`. -/
theorem noise_phase_stalls_at_cycle_end :
    (run 360 ( kbd_IO (quiet 'N' 1 60) init)).m = 0 ∧
    (run 360 ( kbd_IO (quiet 'N' 1 60) init)).n = 360 ∧
    (run 361 ( kbd_IO (quiet 'N' 1 60) init)).m = 0 ∧
    (run 361 ( kbd_IO (quiet 'N' 1 60) init)).n = 360 ∧
    (run 361 ( kbd_IO (quiet 'N' 1 60) init)).m
      ≠ ((run 360 ( kbd_IO (quiet 'N' 1 60) init)).m + 1) % 6 ∧
    (run 361 ( kbd_IO (quiet 'N' 1 60) init)).n
      ≠ ((run 360 ( kbd_IO (quiet 'N' 1 60) init)).n + 1) % 1440 := by
  obtain ⟨h0, h1, _, _⟩ := normal_60_first_cycle
  obtain ⟨a1, a2⟩ := phase_counts_samples 360 ( kbd_IO (quiet 'N' 1 60) init) (by decide)
    (by decide) (by decide) (by decide)
  obtain ⟨b1, b2⟩ := phase_counts_samples 361 ( kbd_IO (quiet 'N' 1 60) init) (by decide)
    (by decide) (by decide) (by decide)
  have c0 : sample_count (ticks 360 ( kbd_IO (quiet 'N' 1 60) init)) = 360 := by
    rw [h0, sample_count_append, sample_count_ecg1_run, sample_count_baseline_run]
  have c1 : sample_count (ticks 361 ( kbd_IO (quiet 'N' 1 60) init)) = 360 := by
    rw [h1, sample_count_normal_cycle]
  have m0 : ( kbd_IO (quiet 'N' 1 60) init).m = 0 := by decide
  have n0 : ( kbd_IO (quiet 'N' 1 60) init).n = 0 := by decide
  rw [c0, m0] at a1
  rw [c0, n0] at a2
  rw [c1, m0] at b1
  rw [c1, n0] at b2
  rw [a1, a2, b1, b2]
  decide

/-- C10 (the code at the failing input).  Normal mode, heart rate 60: after
one tick, running `kbd_IO` again with the same answers leaves `i = 1`,
`m = 1`, `n = 1`, and the next tick writes ECG1[1], whereas a fresh session
starts with ECG1[0]. -/
theorem restart_keeps_playback_state :
    ( kbd_IO (quiet 'N' 1 60) (run 1 ( kbd_IO (quiet 'N' 1 60) init))).i = 1 ∧
    ( kbd_IO (quiet 'N' 1 60) (run 1 ( kbd_IO (quiet 'N' 1 60) init))).m = 1 ∧
    ( kbd_IO (quiet 'N' 1 60) (run 1 ( kbd_IO (quiet 'N' 1 60) init))).n = 1 ∧
    sampleAt ( kbd_IO (quiet 'N' 1 60) (run 1 ( kbd_IO (quiet 'N' 1 60) init)))
      = [Event.ECG1 1] ∧
    sampleAt ( kbd_IO (quiet 'N' 1 60) init) = [Event.ECG1 0] := by
  decide

/-! ## The QRS pulse -/

/-- C8.  In every run from a fresh session (pulse low), whatever the
operator typed: after a tick that plays ECG1 at index `a` the pulse is high
iff `46 <= a < 65`, and the next tick plays index `a + 1`, so the pulse is
high for `65 - 46 = 19` consecutive ticks of each ECG1 playback; after a tick
that plays ECG3 at index `a` the pulse is high iff `6 <= a < 61`, 55
consecutive ticks of each ECG3 playback; after every other tick (baseline
sample or end of cycle) the pulse is low. -/
theorem qrs_pulse_window (inp : KbdInput) (t : Nat) :
    ( kbd_IO inp init).QRS_led = 0 ∧
    (∀ a : Int, sampleAt (run t ( kbd_IO inp init)) = [Event.ECG1 a] →
      0 ≤ a ∧ a < BUFFER_SIZE1 ∧
      ((step (run t ( kbd_IO inp init))).QRS_led = 1 ↔
        ECG1_QRS_onset ≤ a ∧ a < ECG1_QRS_offset) ∧
      (a + 1 < BUFFER_SIZE1 →
        sampleAt (step (run t ( kbd_IO inp init))) = [Event.ECG1 (a + 1)])) ∧
    (∀ a : Int, sampleAt (run t ( kbd_IO inp init)) = [Event.ECG3 a] →
      0 ≤ a ∧ a < BUFFER_SIZE3 ∧
      ((step (run t ( kbd_IO inp init))).QRS_led = 1 ↔
        ECG3_QRS_onset ≤ a ∧ a < ECG3_QRS_offset) ∧
      (a + 1 < BUFFER_SIZE3 →
        sampleAt (step (run t ( kbd_IO inp init))) = [Event.ECG3 (a + 1)])) ∧
    ((∀ a : Int, sampleAt (run t ( kbd_IO inp init)) ≠ [Event.ECG1 a]) →
      (∀ a : Int, sampleAt (run t ( kbd_IO inp init)) ≠ [Event.ECG3 a]) →
      (step (run t ( kbd_IO inp init))).QRS_led = 0) ∧
    ((step (run t ( kbd_IO inp init))).QRS_led = 0 ∨
      (step (run t ( kbd_IO inp init))).QRS_led = 1) ∧
    ECG1_QRS_offset - ECG1_QRS_onset = 19 ∧ ECG3_QRS_offset - ECG3_QRS_onset = 55 := by
  have hinv := Inv_run t _ (Inv_kbd_IO_init inp)
  have hinv1 := Inv_step _ hinv
  generalize run t ( kbd_IO inp init) = s at hinv hinv1
  obtain ⟨i0, i1, k0, k1, j0, hz, hkv, hled⟩ := hinv
  have hled1 := hinv1.2.2.2.2.2.2.2
  refine ⟨(kbd_IO_playback inp init).2.2.2.2.2.2, ?_, ?_, ?_, ?_, by decide, by decide⟩
  · intro a ha
    rcases step_cases s with ⟨c, h, e⟩ | ⟨c, c3, h, e⟩ | ⟨c, c3, cj, h, e⟩ | ⟨c, c3, cj, h, e⟩
    · rw [e] at ha
      have hai : s.i = a := by simpa using ha
      obtain ⟨z1, z2, z3⟩ := hz c
      unfold BUFFER_SIZE1 ECG1_QRS_onset ECG1_QRS_offset
      refine ⟨by omega, by omega, ?_, ?_⟩
      · rw [h]; simp only []
        rw [hled, z2, hai]
        split_ifs <;> omega
      · intro hlt
        have hs := sampleAt_ecg1 (step s) (by rw [h]; simp only []; omega)
        rw [hs, h]; simp only []
        rw [hai]
    · rw [e] at ha; simp at ha
    · rw [e] at ha; simp at ha
    · rw [e] at ha; simp at ha
  · intro a ha
    rcases step_cases s with ⟨c, h, e⟩ | ⟨c, c3, h, e⟩ | ⟨c, c3, cj, h, e⟩ | ⟨c, c3, cj, h, e⟩
    · rw [e] at ha; simp at ha
    · rw [e] at ha
      have hak : s.k = a := by simpa using ha
      obtain ⟨cV, cp, ck⟩ := c3
      unfold BUFFER_SIZE3 ECG3_QRS_onset ECG3_QRS_offset
      refine ⟨by omega, by omega, ?_, ?_⟩
      · rw [h]; simp only []
        rw [hled, hak]
        split_ifs <;> omega
      · intro hlt
        have hs := sampleAt_ecg3 (step s) (by rw [h]; exact c)
          (by rw [step_beat_type]; exact cV) (by rw [h]; exact cp)
          (by rw [h]; simp only []; omega)
        rw [hs, h]; simp only []
        rw [hak]
    · rw [e] at ha; simp at ha
    · rw [e] at ha; simp at ha
  · intro h1 h3
    rcases step_cases s with ⟨c, h, e⟩ | ⟨c, c3, h, e⟩ | ⟨c, c3, cj, h, e⟩ | ⟨c, c3, cj, h, e⟩
    · exact absurd e (h1 s.i)
    · exact absurd e (h3 s.k)
    · have hk163 : s.k = 0 ∨ s.k = 163 := by
        by_cases hk0 : s.k = 0
        · exact Or.inl hk0
        · obtain ⟨hV, hp⟩ := hkv hk0
          have : ¬ s.k < 163 := fun hlt => c3 ⟨hV, hp, hlt⟩
          exact Or.inr (by omega)
      rw [h]; simp only []
      rw [hled, if_neg (by omega)]
    · rw [hled1, h]; simp
  · rw [hled1]
    split_ifs
    · exact Or.inr rfl
    · exact Or.inl rfl

/-! ## Validation of the configuration -/

/-- C13.  For every heart rate from 40 to 120 typed by the operator, the
normal isoelectric length `iso_pts = (int)(21600/hr) - BUFFER_SIZE1` computed
by `kbd_IO` is not negative, and neither are `iso_pts3` and the skipped-beat
length `2 * iso_pts + BUFFER_SIZE1`. -/
theorem iso_lengths_nonneg (inp : KbdInput) (s : State) (h40 : 40 ≤ inp.hr)
    (h120 : inp.hr ≤ 120) :
    ( kbd_IO inp s).iso_pts = Int.tdiv 21600 inp.hr - BUFFER_SIZE1 ∧
    0 ≤ ( kbd_IO inp s).iso_pts ∧
    0 ≤ ( kbd_IO inp s).iso_pts3 ∧
    0 ≤ 2 * ( kbd_IO inp s).iso_pts + BUFFER_SIZE1 := by
  obtain ⟨b1, b2, b3⟩ := kbd_IO_iso_bounds inp s h40 h120
  refine ⟨kbd_IO_iso_pts inp s h40 h120, by omega, by omega, ?_⟩
  unfold BUFFER_SIZE1
  omega

/-- C13 (witness).  At 120 beats per minute, the fastest accepted rate,
`iso_pts` is 17. -/
theorem iso_lengths_nonneg_witness :
    ( kbd_IO (quiet 'N' 1 120) init).iso_pts = Int.tdiv 21600 (quiet 'N' 1 120).hr - BUFFER_SIZE1 ∧
    0 ≤ ( kbd_IO (quiet 'N' 1 120) init).iso_pts ∧
    0 ≤ ( kbd_IO (quiet 'N' 1 120) init).iso_pts3 ∧
    0 ≤ 2 * ( kbd_IO (quiet 'N' 1 120) init).iso_pts + BUFFER_SIZE1 :=
  iso_lengths_nonneg (quiet 'N' 1 120) init (by decide) (by decide)

/-- C14.  For every integer typed as heart rate, after `kbd_IO` the global
`hr` is that integer when it lies between 40 and 120 and is 60 otherwise; so
`hr` lies between 40 and 120, and it is this validated value from which
`iso_pts` and `iso_pts3` are computed. -/
theorem hr_validated (inp : KbdInput) (s : State) :
    ( kbd_IO inp s).hr = (if 40 ≤ inp.hr ∧ inp.hr ≤ 120 then inp.hr else 60) ∧
    40 ≤ ( kbd_IO inp s).hr ∧ ( kbd_IO inp s).hr ≤ 120 ∧
    ( kbd_IO inp s).iso_pts = Int.tdiv 21600 ( kbd_IO inp s).hr - BUFFER_SIZE1 ∧
    ( kbd_IO inp s).iso_pts3 = BUFFER_SIZE1 + 2 * ( kbd_IO inp s).iso_pts - BUFFER_SIZE3 := by
  have hhr : ( kbd_IO inp s).hr = kbd_hr inp := by rw [kbd_IO_eq]
  have hiso : ( kbd_IO inp s).iso_pts = Int.tdiv 21600 (kbd_hr inp) - 163 := by rw [kbd_IO_eq]
  have hiso3 := kbd_IO_iso_pts3 inp s
  rw [hhr, hiso]
  unfold BUFFER_SIZE1 BUFFER_SIZE3
  rw [hiso] at hiso3
  refine ⟨?_, ?_, ?_, rfl, hiso3⟩
  · unfold kbd_hr; split_ifs <;> omega
  · unfold kbd_hr; split_ifs <;> omega
  · unfold kbd_hr; split_ifs <;> omega

/-- C17 (the code at the failing input).  On a freshly loaded program
(`beat_type = 'V'`, `ab_beat_freq = 1`) the operator answers the mode prompt
with `X`: `kbd_IO` stores `'N'` in `input1` and leaves `beat_type` at `'V'`,
so the session that follows plays a PVC in its first cycle. -/
theorem bad_mode_keeps_beat_type :
    ( kbd_IO (quiet 'X' 1 60) init).beat_type = 'V' ∧
    ( kbd_IO (quiet 'X' 1 60) init).input1 = 'N' ∧
    ( kbd_IO (quiet 'X' 1 60) init).ab_beat_freq = 1 ∧
    sampleAt (run 163 ( kbd_IO (quiet 'X' 1 60) init)) = [Event.ECG3 0] := by
  refine ⟨by decide, by decide, by decide, ?_⟩
  obtain ⟨_, a2, _, a4, a5, _⟩ := ticks_ecg1 163 0 ( kbd_IO (quiet 'X' 1 60) init) (by decide)
    (by omega)
  have h := sampleAt_ecg3 (run 163 ( kbd_IO (quiet 'X' 1 60) init)) (by rw [a2]; decide)
    (by rw [run_beat_type]; decide) (by rw [a5, run_ab_beat_freq]; decide)
    (by rw [a4]; decide)
  rw [h, a4]
  decide

/-! ## The beat counter -/

/-- C18.  For every state: if `ab_beat_freq >= 1` and `1 <= p <= ab_beat_freq`
before a tick, the same holds after it; a tick that writes a sample leaves `p`
unchanged; the tick that writes no sample (the one that ends a cycle) resets
`i`, `j`, `k` and sets `p` to 1 when `p = ab_beat_freq` and to `p + 1`
otherwise.  Since `p` is constant between two such ticks, the choice of the
PVC template and the choice of the baseline length in one cycle read the same
`p`. -/
theorem beat_counter_invariant (s : State) :
    (1 ≤ s.ab_beat_freq → 1 ≤ s.p → s.p ≤ s.ab_beat_freq →
      1 ≤ (step s).ab_beat_freq ∧ 1 ≤ (step s).p ∧ (step s).p ≤ (step s).ab_beat_freq) ∧
    (sampleAt s ≠ [] → (step s).p = s.p) ∧
    (sampleAt s = [] →
      (step s).p = (if s.p = s.ab_beat_freq then 1 else s.p + 1) ∧
      (step s).i = 0 ∧ (step s).j = 0 ∧ (step s).k = 0) ∧
    ((step s).p ≠ s.p → sampleAt s = []) := by
  have hab := step_ab_beat_freq s
  rcases step_cases s with ⟨c, h, e⟩ | ⟨c, c3, h, e⟩ | ⟨c, c3, cj, h, e⟩ | ⟨c, c3, cj, h, e⟩
  · have hp : (step s).p = s.p := by rw [h]
    refine ⟨fun h1 h2 h3 => by rw [hab, hp]; exact ⟨h1, h2, h3⟩, fun _ => hp, ?_,
      fun hne => absurd hp hne⟩
    intro hs; rw [e] at hs; simp at hs
  · have hp : (step s).p = s.p := by rw [h]
    refine ⟨fun h1 h2 h3 => by rw [hab, hp]; exact ⟨h1, h2, h3⟩, fun _ => hp, ?_,
      fun hne => absurd hp hne⟩
    intro hs; rw [e] at hs; simp at hs
  · have hp : (step s).p = s.p := by rw [h]
    refine ⟨fun h1 h2 h3 => by rw [hab, hp]; exact ⟨h1, h2, h3⟩, fun _ => hp, ?_,
      fun hne => absurd hp hne⟩
    intro hs; rw [e] at hs; simp at hs
  · have hp : (step s).p = (if s.p = s.ab_beat_freq then 1 else s.p + 1) := by rw [h]
    refine ⟨?_, fun hne => absurd e hne, fun _ => ⟨hp, by rw [h], by rw [h], by rw [h]⟩,
      fun _ => e⟩
    intro h1 h2 h3
    rw [hab, hp]
    refine ⟨h1, ?_, ?_⟩ <;> split_ifs <;> omega

/-! ## Bounds of the playback position -/

/-- Whatever the operator types, the heart rate kept by `kbd_IO` makes the
isoelectric length positive. -/
theorem kbd_IO_iso_pts_nonneg (inp : KbdInput) (s : State) : 0 ≤ ( kbd_IO inp s).iso_pts := by
  have hiso : ( kbd_IO inp s).iso_pts = Int.tdiv 21600 (kbd_hr inp) - 163 := by rw [kbd_IO_eq]
  have h40 : 40 ≤ kbd_hr inp := by unfold kbd_hr; split_ifs <;> omega
  have h120 : kbd_hr inp ≤ 120 := by unfold kbd_hr; split_ifs <;> omega
  obtain ⟨e, lo, _, _, _⟩ := tdiv_hr (kbd_hr inp) h40 h120
  rw [hiso, e]
  omega

theorem Inv_base_kbd_IO_init (inp : KbdInput) : Inv_base ( kbd_IO inp init) := by
  obtain ⟨_, hj, _, _, _, _, _⟩ := kbd_IO_playback inp init
  have hb := kbd_IO_base_pts inp init
  have h0 := kbd_IO_iso_pts_nonneg inp init
  have hj0 : ( kbd_IO inp init).j = 0 := by rw [hj]; rfl
  unfold Inv_base
  rw [hj0, hb]
  exact ⟨h0, le_refl 0, h0⟩

theorem Inv_base_step (s : State) (h : Inv_base s) : Inv_base (step s) := by
  obtain ⟨h0, j0, jb⟩ := h
  unfold Inv_base
  rw [step_iso_pts]
  rcases step_cases s with ⟨c, h, _⟩ | ⟨c, c3, h, _⟩ | ⟨c, c3, cj, h, _⟩ | ⟨c, c3, cj, h, _⟩
  · rw [h]; exact ⟨h0, j0, jb⟩
  · rw [h]; exact ⟨h0, j0, jb⟩
  · rw [h]; simp only []; exact ⟨h0, by omega, by omega⟩
  · rw [h]; simp only []; exact ⟨h0, le_refl 0, h0⟩

theorem Inv_base_run (t : Nat) (s : State) (h : Inv_base s) : Inv_base (run t s) := by
  induction t generalizing s with
  | zero => exact h
  | succ t ih => exact ih (step s) (Inv_base_step s h)

theorem ECG1_length : ECG1.length = 163 := rfl

theorem ECG3_length : ECG3.length = 163 := rfl

/-- Inside the array a read is defined. -/
theorem table_at_isSome (tbl : List Rat) (a : Int) (h0 : 0 ≤ a) (h1 : a < tbl.length) :
    ∃ x, table_at tbl a = some x := by
  have hlt : a.toNat < tbl.length := by omega
  refine ⟨tbl[a.toNat], ?_⟩
  unfold table_at
  rw [if_pos h0, List.getElem?_eq_getElem hlt]

/-- C15.  In every state of a run from a fresh session, whatever the operator
typed (so in particular for a heart rate from 40 to 120, `ab_beat_freq >= 1`
and any mode): `0 <= i <= BUFFER_SIZE1`, `0 <= k <= BUFFER_SIZE3`,
`0 <= j <= base_pts`, `base_pts >= 0`; and every sample of ECG1 or ECG3 written
by the next tick is read at an index from 0 to 162, inside the table. -/
theorem positions_in_bounds (inp : KbdInput) (t : Nat) :
    0 ≤ (run t ( kbd_IO inp init)).i ∧ (run t ( kbd_IO inp init)).i ≤ BUFFER_SIZE1 ∧
    0 ≤ (run t ( kbd_IO inp init)).k ∧ (run t ( kbd_IO inp init)).k ≤ BUFFER_SIZE3 ∧
    0 ≤ (run t ( kbd_IO inp init)).j ∧
    (run t ( kbd_IO inp init)).j ≤ (run t ( kbd_IO inp init)).base_pts ∧
    0 ≤ (run t ( kbd_IO inp init)).base_pts ∧
    (∀ a : Int, Event.ECG1 a ∈ (samp_out (run t ( kbd_IO inp init))).2 →
      0 ≤ a ∧ a ≤ 162 ∧ ∃ x, table_at ECG1 a = some x) ∧
    (∀ a : Int, Event.ECG3 a ∈ (samp_out (run t ( kbd_IO inp init))).2 →
      0 ≤ a ∧ a ≤ 162 ∧ ∃ x, table_at ECG3 a = some x) := by
  obtain ⟨i0, i1, k0, k1, _, _, _, _⟩ := Inv_run t _ (Inv_kbd_IO_init inp)
  obtain ⟨_, j0, jb⟩ := Inv_base_run t _ (Inv_base_kbd_IO_init inp)
  generalize run t ( kbd_IO inp init) = s at i0 i1 k0 k1 j0 jb
  have hmem : ∀ e : Event, e.isSample = true → (e ∈ (samp_out s).2 ↔ e ∈ sampleAt s) := by
    intro e he
    unfold sampleAt
    rw [List.mem_filter]
    exact ⟨fun h => ⟨h, he⟩, fun h => h.1⟩
  refine ⟨i0, i1, k0, k1, j0, jb, by omega, ?_, ?_⟩
  · intro a ha
    rw [hmem (Event.ECG1 a) rfl] at ha
    rcases step_cases s with ⟨c, _, e⟩ | ⟨_, _, _, e⟩ | ⟨_, _, _, _, e⟩ | ⟨_, _, _, _, e⟩ <;>
      rw [e] at ha <;> simp at ha
    subst ha
    exact ⟨i0, by omega, table_at_isSome ECG1 _ i0 (by rw [ECG1_length]; exact_mod_cast c)⟩
  · intro a ha
    rw [hmem (Event.ECG3 a) rfl] at ha
    rcases step_cases s with ⟨_, _, e⟩ | ⟨_, c3, _, e⟩ | ⟨_, _, _, _, e⟩ | ⟨_, _, _, _, e⟩ <;>
      rw [e] at ha <;> simp at ha
    subst ha
    exact ⟨k0, by omega, table_at_isSome ECG3 _ k0 (by rw [ECG3_length]; exact_mod_cast c3.2.2)⟩

/-! ## Modes without PVC -/

/-- C16.  When `beat_type` is `'S'` or `'N'` in a session, then in every state
of the run `k` is 0 and the next tick does not call `plot_ECG3`, for every
`ab_beat_freq` and every heart rate typed. -/
theorem no_pvc_in_S_or_N (inp : KbdInput) (t : Nat)
    (hmode : ( kbd_IO inp init).beat_type = 'S' ∨ ( kbd_IO inp init).beat_type = 'N') :
    (run t ( kbd_IO inp init)).k = 0 ∧
    (∀ a : Int, Event.ECG3 a ∉ (samp_out (run t ( kbd_IO inp init))).2) ∧
    (step (run t ( kbd_IO inp init))).k = 0 := by
  have hnV : (run t ( kbd_IO inp init)).beat_type ≠ 'V' := by
    rw [run_beat_type]
    rcases hmode with h | h <;> rw [h] <;> decide
  have hinv := Inv_run t _ (Inv_kbd_IO_init inp)
  have hinv1 := Inv_step _ hinv
  have hk : ∀ s : State, Inv s → s.beat_type ≠ 'V' → s.k = 0 := by
    intro s hs hne
    by_contra hk0
    exact hne (hs.2.2.2.2.2.2.1 hk0).1
  refine ⟨hk _ hinv hnV, ?_, hk _ hinv1 (by rw [step_beat_type]; exact hnV)⟩
  intro a ha
  have hs : Event.ECG3 a ∈ sampleAt (run t ( kbd_IO inp init)) := by
    unfold sampleAt
    rw [List.mem_filter]
    exact ⟨ha, rfl⟩
  rcases step_cases (run t ( kbd_IO inp init)) with
    ⟨_, _, e⟩ | ⟨_, c3, _, e⟩ | ⟨_, _, _, _, e⟩ | ⟨_, _, _, _, e⟩
  · rw [e] at hs; simp at hs
  · exact hnV c3.1
  · rw [e] at hs; simp at hs
  · rw [e] at hs; simp at hs

/-- C16 (witness).  Skipped-beat mode with `ab_beat_freq = 1` at 60 beats per
minute, after 1000 ticks. -/
theorem no_pvc_in_S_or_N_witness :
    (run 1000 ( kbd_IO (quiet 'S' 1 60) init)).k = 0 ∧
    (∀ a : Int, Event.ECG3 a ∉ (samp_out (run 1000 ( kbd_IO (quiet 'S' 1 60) init))).2) ∧
    (step (run 1000 ( kbd_IO (quiet 'S' 1 60) init))).k = 0 :=
  no_pvc_in_S_or_N (quiet 'S' 1 60) 1000 (Or.inl (by decide))

/-! ## Cycles without abnormal beat, for ever -/

/-- From a cycle start in Normal mode, or with the beat counter above
`ab_beat_freq`, every cycle is a cycle without abnormal beat. -/
theorem plain_cycles (I : Nat) (r : Nat) : ∀ (s : State), CycleStart s →
    s.iso_pts = (I : Int) → (s.beat_type = 'N' ∨ s.ab_beat_freq < s.p) →
    ticks (r * (163 + I + 1)) s = cycles r (normal_cycle I) ∧
    CycleStart (run (r * (163 + I + 1)) s) := by
  induction r with
  | zero => intro s hs _ _; exact ⟨by simp [ticks, cycles], by simpa [run] using hs⟩
  | succ r ih =>
    intro s hs hI hm
    have hnv : ¬ (s.beat_type = 'V' ∧ s.p = s.ab_beat_freq) := by
      rcases hm with h | h
      · rw [h]; exact fun c => absurd c.1 (by decide)
      · exact fun c => by omega
    have hsel : sel_base s = (I : Int) := by
      unfold sel_base
      rcases hm with h | h
      · rw [h, hI]; simp
      · have hne : s.p ≠ s.ab_beat_freq := by omega
        rw [hs.2.2.2, hI]; simp [hne]
    obtain ⟨a1, a2, a3⟩ := cycle_no_pvc s I hs hnv hsel
    have hm1 : (run (163 + I + 1) s).beat_type = 'N' ∨
        (run (163 + I + 1) s).ab_beat_freq < (run (163 + I + 1) s).p := by
      rw [run_beat_type, run_ab_beat_freq, a3]
      rcases hm with h | h
      · exact Or.inl h
      · right; split_ifs <;> omega
    obtain ⟨b1, b2⟩ := ih (run (163 + I + 1) s) a2 (by rw [run_iso_pts]; exact hI) hm1
    have hmul : (r + 1) * (163 + I + 1) = (163 + I + 1) + r * (163 + I + 1) := by ring
    rw [hmul, ticks_add (163 + I + 1) (r * (163 + I + 1)) s,
      run_add (163 + I + 1) (r * (163 + I + 1)) s]
    refine ⟨?_, b2⟩
    rw [a1, b1]
    rfl

theorem p_above_step (s : State) (hp : s.ab_beat_freq < s.p) :
    (step s).ab_beat_freq < (step s).p := by
  rw [step_ab_beat_freq]
  rcases step_cases s with ⟨_, h, _⟩ | ⟨_, _, h, _⟩ | ⟨_, _, _, h, _⟩ | ⟨_, _, _, h, _⟩
  · rw [h]; exact hp
  · rw [h]; exact hp
  · rw [h]; exact hp
  · rw [h]; simp only []; split_ifs <;> omega

theorem p_above_run (t : Nat) (s : State) (hp : s.ab_beat_freq < s.p) :
    (run t s).ab_beat_freq < (run t s).p := by
  induction t generalizing s with
  | zero => exact hp
  | succ t ih => exact ih (step s) (p_above_step s hp)

/-- A session with `ab_beat_freq = 3` at 60 beats per minute is reconfigured
after its first cycle (361 ticks) with `ab_beat_freq = 1`: the beat counter is
2, above the new `ab_beat_freq`, at the start of a cycle. -/
theorem lowered_freq_state :
    ( kbd_IO (quiet 'V' 1 60) (run 361 ( kbd_IO (quiet 'V' 3 60) init))).ab_beat_freq = 1 ∧
    ( kbd_IO (quiet 'V' 1 60) (run 361 ( kbd_IO (quiet 'V' 3 60) init))).p = 2 ∧
    ( kbd_IO (quiet 'V' 1 60) (run 361 ( kbd_IO (quiet 'V' 3 60) init))).beat_type = 'V' ∧
    ( kbd_IO (quiet 'V' 1 60) (run 361 ( kbd_IO (quiet 'V' 3 60) init))).iso_pts = 197 ∧
    CycleStart ( kbd_IO (quiet 'V' 1 60) (run 361 ( kbd_IO (quiet 'V' 3 60) init))) := by
  have hcs : CycleStart ( kbd_IO (quiet 'V' 3 60) init) :=
    cycleStart_of_i (quiet 'V' 3 60) 0 (by decide)
  have hnv : ¬ (( kbd_IO (quiet 'V' 3 60) init).beat_type = 'V' ∧
      ( kbd_IO (quiet 'V' 3 60) init).p = ( kbd_IO (quiet 'V' 3 60) init).ab_beat_freq) := by
    decide
  have hsel : sel_base ( kbd_IO (quiet 'V' 3 60) init) = ((197 : Nat) : Int) := by decide
  obtain ⟨_, a2, a3⟩ := cycle_no_pvc _ 197 hcs hnv hsel
  have hp1 : (run 361 ( kbd_IO (quiet 'V' 3 60) init)).p = 2 := by
    rw [show (361 : Nat) = 163 + 197 + 1 from rfl, a3]; decide
  obtain ⟨q1, q2, q3, q4, _, _, _⟩ :=
    kbd_IO_playback (quiet 'V' 1 60) (run 361 ( kbd_IO (quiet 'V' 3 60) init))
  obtain ⟨hV, hab⟩ := kbd_IO_mode_V (quiet 'V' 1 60)
    (run 361 ( kbd_IO (quiet 'V' 3 60) init)) (Or.inl rfl)
  have hiso := kbd_IO_iso_pts (quiet 'V' 1 60) (run 361 ( kbd_IO (quiet 'V' 3 60) init))
    (by decide) (by decide)
  obtain ⟨c1, c2, c3, _⟩ := a2
  refine ⟨hab, by rw [q4, hp1], hV, by rw [hiso]; decide, ?_, ?_, ?_, kbd_IO_base_pts _ _⟩
  · rw [q1]; exact c1
  · rw [q2]; exact c2
  · rw [q3]; exact c3

/-- C19.  `kbd_IO` never writes `p`.  From any state with `p > ab_beat_freq`
(with `p` an unbounded integer, that is, short of overflow): after every
number of ticks `p > ab_beat_freq` still holds, the next tick does not call
`plot_ECG3`, and it leaves `base_pts` unchanged or sets it to `iso_pts`, never
to `iso_pts3` or `2 * iso_pts + BUFFER_SIZE1` by the rules of lines 144-145;
and from the start of a cycle the output is the Normal rhythm, cycle after
cycle. -/
theorem stale_counter_gives_normal_rhythm (s : State) (t : Nat)
    (hp : s.ab_beat_freq < s.p) :
    (∀ (inp : KbdInput) (s1 : State), ( kbd_IO inp s1).p = s1.p) ∧
    (run t s).ab_beat_freq < (run t s).p ∧
    (∀ a : Int, Event.ECG3 a ∉ (samp_out (run t s)).2) ∧
    ((step (run t s)).base_pts = (run t s).base_pts ∨
      (step (run t s)).base_pts = (run t s).iso_pts) ∧
    (∀ I : Nat, CycleStart s → s.iso_pts = (I : Int) →
      ticks (t * (163 + I + 1)) s = cycles t (normal_cycle I)) := by
  have hrun := p_above_run t s hp
  refine ⟨fun inp s1 => (kbd_IO_playback inp s1).2.2.2.1, hrun, ?_, ?_,
    fun I hcs hI => (plain_cycles I t s hcs hI (Or.inr hp)).1⟩
  · intro a ha
    have hs : Event.ECG3 a ∈ sampleAt (run t s) := by
      unfold sampleAt
      rw [List.mem_filter]
      exact ⟨ha, rfl⟩
    rcases step_cases (run t s) with
      ⟨_, _, e⟩ | ⟨_, c3, _, e⟩ | ⟨_, _, _, _, e⟩ | ⟨_, _, _, _, e⟩
    · rw [e] at hs; simp at hs
    · omega
    · rw [e] at hs; simp at hs
    · rw [e] at hs; simp at hs
  · rcases step_cases (run t s) with
      ⟨_, h, _⟩ | ⟨_, _, h, _⟩ | ⟨_, _, _, h, _⟩ | ⟨_, _, _, h, _⟩
    · left; rw [h]
    · left; rw [h]
    · have hne : (run t s).p ≠ (run t s).ab_beat_freq := by omega
      rw [h]; simp only [sel_base]
      by_cases hN : (run t s).beat_type = 'N'
      · right; simp [hne, hN]
      · left; simp [hne, hN]
    · right; rw [h]

/-- C19 (witness).  A PVC session with `ab_beat_freq = 3` at 60 beats per
minute is reconfigured after its first cycle with `ab_beat_freq = 1`, so that
`p = 2 > 1`: the next two cycles are cycles without abnormal beat. -/
theorem stale_counter_gives_normal_rhythm_witness :
    ( kbd_IO (quiet 'V' 1 60) (run 361 ( kbd_IO (quiet 'V' 3 60) init))).ab_beat_freq
      < ( kbd_IO (quiet 'V' 1 60) (run 361 ( kbd_IO (quiet 'V' 3 60) init))).p ∧
    ticks (2 * (163 + 197 + 1))
        ( kbd_IO (quiet 'V' 1 60) (run 361 ( kbd_IO (quiet 'V' 3 60) init)))
      = cycles 2 (normal_cycle 197) :=
  have hp : ( kbd_IO (quiet 'V' 1 60) (run 361 ( kbd_IO (quiet 'V' 3 60) init))).ab_beat_freq
      < ( kbd_IO (quiet 'V' 1 60) (run 361 ( kbd_IO (quiet 'V' 3 60) init))).p := by
    rw [lowered_freq_state.1, lowered_freq_state.2.1]; decide
  ⟨hp, (stale_counter_gives_normal_rhythm _ 2 hp).2.2.2.2 197 lowered_freq_state.2.2.2.2
    lowered_freq_state.2.2.2.1⟩

/-! ## Sample values without noise -/

theorem ampl_step (s : State) : ampl (step s) = ampl s := by
  rcases step_cases s with ⟨_, h, _⟩ | ⟨_, _, h, _⟩ | ⟨_, _, _, h, _⟩ | ⟨_, _, _, h, _⟩ <;>
    rw [h] <;> rfl

theorem noise_value_zero (sin : Rat → Rat) (rnd : Rat) (s : State)
    (h : ampl s = (0, 0, 0)) : noise_value sin rnd s = 0 := by
  simp only [ampl, Prod.mk.injEq] at h
  obtain ⟨h1, h2, h3⟩ := h
  simp [noise_value, noise_eq, h1, h2, h3]

theorem event_value_zero (sin : Rat → Rat) (rnd : Rat) (s : State)
    (h : ampl s = (0, 0, 0)) (e : Event) : event_value sin rnd s e = quiet_value e := by
  cases e <;>
    simp [event_value, quiet_value, plot_ECG1_value, plot_ECG3_value, plot_baseline_value,
      noise_value_zero sin rnd s h]

/-- Without noise the values of a run are the zero-noise values of its
ticks, whatever `sin` and the random draws are. -/
theorem values_zero (sin : Rat → Rat) (t : Nat) : ∀ (rnd : Nat → Rat) (s : State),
    ampl s = (0, 0, 0) → values sin t rnd s = quiet_values (ticks t s) := by
  induction t with
  | zero => intro _ _ _; rfl
  | succ t ih =>
    intro rnd s h
    rw [values, ticks, quiet_values, ih _ (step s) (by rw [ampl_step]; exact h)]
    congr 1
    unfold value_at
    exact List.map_congr_left (fun e _ => event_value_zero sin (rnd 0) s h e)

/-- C11.  With `ampl_60Hz = ampl_rand = ampl_lf = 0`, in exact arithmetic:
the sample written by `plot_ECG1(i)` is `0.5 + 0.3 * (ECG1[i] - 0.5)`, the one
written by `plot_ECG3(k)` is `0.5 + 0.3 * (ECG3[k] - 0.5)` and the one written
by `plot_baseline` is `0.5`, whatever the random draw, the value of `sin` and
the phase counters `m` and `n` of the state; and two runs from the same state
with different random sequences write the same sequence of samples. -/
theorem zero_noise_deterministic (s : State) (sin sin1 : Rat → Rat) (rnd : Rat)
    (seq seq1 : Nat → Rat) (t : Nat)
    (h60 : s.ampl_60Hz = 0) (hrand : s.ampl_rand = 0) (hlf : s.ampl_lf = 0) :
    (∀ i : Int, plot_ECG1_value sin rnd i s
      = (table_at ECG1 i).map (fun x => 0.5 + 0.3 * (x - 0.5))) ∧
    (∀ k : Int, plot_ECG3_value sin rnd k s
      = (table_at ECG3 k).map (fun x => 0.5 + 0.3 * (x - 0.5))) ∧
    plot_baseline_value sin rnd s = 0.5 ∧
    values sin t seq s = values sin1 t seq1 s := by
  have h : ampl s = (0, 0, 0) := by simp [ampl, h60, hrand, hlf]
  have hn := noise_value_zero sin rnd s h
  refine ⟨?_, ?_, ?_, ?_⟩
  · intro i; simp [plot_ECG1_value, hn]
  · intro k; simp [plot_ECG3_value, hn]
  · simp [plot_baseline_value, hn]
  · rw [values_zero sin t seq s h, values_zero sin1 t seq1 s h]

/-- C11 (witness).  The first three ticks of a Normal session without noise
at 60 beats per minute, once with `sin = 0` and all draws 0, once with
`sin = 1` and all draws 1. -/
theorem zero_noise_deterministic_witness :
    plot_baseline_value (fun _ => 0) 1 ( kbd_IO (quiet 'N' 1 60) init) = 0.5 ∧
    values (fun _ => 0) 3 (fun _ => 0) ( kbd_IO (quiet 'N' 1 60) init)
      = values (fun _ => 1) 3 (fun _ => 1) ( kbd_IO (quiet 'N' 1 60) init) :=
  (zero_noise_deterministic ( kbd_IO (quiet 'N' 1 60) init) (fun _ => 0) (fun _ => 1) 1
    (fun _ => 0) (fun _ => 1) 3 (by decide) (by decide) (by decide)).2.2

theorem quiet_values_append (a b : List (List Event)) :
    quiet_values (a ++ b) = quiet_values a ++ quiet_values b := by
  induction a with
  | nil => rfl
  | cons l ls ih => rw [List.cons_append, quiet_values, ih, quiet_values, List.append_assoc]

theorem quiet_values_cycles (r : Nat) (c : List (List Event)) :
    quiet_values (cycles r c) = periods r (quiet_values c) := by
  induction r with
  | zero => rfl
  | succ r ih => rw [cycles, quiet_values_append, ih, periods]

theorem quiet_values_singles (f : Nat → Event) (l : List Nat) :
    quiet_values (l.map (fun x => [f x])) = l.map (fun x => quiet_value (f x)) := by
  induction l with
  | nil => rfl
  | cons a l ih => simp only [List.map_cons, quiet_values, ih, List.map_nil]; rfl

theorem table_at_natCast (tbl : List Rat) (x : Nat) : table_at tbl (x : Int) = tbl[x]? := by
  unfold table_at
  simp

theorem range_map_getElem? (l : List Rat) (g : Rat → Rat) :
    (List.range l.length).map (fun x => (l[x]?).map g) = l.map (fun x => some (g x)) := by
  apply List.ext_getElem
  · simp
  · intro n h1 h2
    simp only [List.length_map, List.length_range] at h1
    simp [List.getElem?_eq_getElem h1]

theorem quiet_values_ecg1_run :
    quiet_values ecg1_run = ECG1.map (fun x => some (0.5 + 0.3 * (x - 0.5))) := by
  unfold ecg1_run
  rw [quiet_values_singles (fun x => Event.ECG1 (x : Int))]
  simp only [quiet_value, table_at_natCast]
  exact range_map_getElem? ECG1 (fun x => 0.5 + 0.3 * (x - 0.5))

theorem quiet_values_baseline_run (len : Nat) :
    quiet_values (baseline_run len) = List.replicate len (some 0.5) := by
  unfold baseline_run
  rw [quiet_values_singles (fun x => Event.baseline (x : Int))]
  simp only [quiet_value]
  apply List.ext_getElem
  · simp
  · intro n h1 h2
    simp

/-- C12.  Normal mode, heart rate 60, no noise, on a fresh program: `kbd_IO`
gives a beat period `BUFFER_SIZE1 + iso_pts` of 360 with `iso_pts = 197`, and
for every number `r` of cycles the samples written by `samp_out` from the
initial state are `r` copies of one period of 360 samples: the 163 values
`0.5 + 0.3 * (ECG1[i] - 0.5)` followed by 197 samples equal to `0.5`, whatever
`sin` and the random draws are.  (Each period takes 361 ticks.) -/
theorem normal_60_samples_periodic (sin : Rat → Rat) (seq : Nat → Rat) (r : Nat) :
    BUFFER_SIZE1 + ( kbd_IO (quiet 'N' 1 60) init).iso_pts = 360 ∧
    ( kbd_IO (quiet 'N' 1 60) init).iso_pts = 197 ∧
    values sin (r * 361) seq ( kbd_IO (quiet 'N' 1 60) init)
      = periods r (ECG1.map (fun x => some (0.5 + 0.3 * (x - 0.5)))
          ++ List.replicate 197 (some 0.5)) ∧
    (ECG1.map (fun x => some (0.5 + 0.3 * (x - 0.5)))
      ++ List.replicate 197 (some (0.5 : Rat))).length = 360 := by
  obtain ⟨hcs, _, _⟩ := normal_session_start (quiet 'N' 1 60) (Or.inl rfl) (by decide)
    (by decide)
  have hampl : ampl ( kbd_IO (quiet 'N' 1 60) init) = (0, 0, 0) := by decide
  obtain ⟨h1, _⟩ := plain_cycles 197 r ( kbd_IO (quiet 'N' 1 60) init) hcs (by decide)
    (Or.inl (by decide))
  refine ⟨by decide, by decide, ?_, ?_⟩
  · rw [values_zero sin (r * 361) seq _ hampl]
    have hq : quiet_values (normal_cycle 197)
        = ECG1.map (fun x => some (0.5 + 0.3 * (x - 0.5))) ++ List.replicate 197 (some 0.5) := by
      rw [normal_cycle, quiet_values_append, quiet_values_append, quiet_values_ecg1_run,
        quiet_values_baseline_run]
      exact List.append_nil _
    rw [show r * 361 = r * (163 + 197 + 1) from rfl, h1, quiet_values_cycles, hq]
  · rw [List.length_append, List.length_map, ECG1_length, List.length_replicate]

end ECGSim
